import Mathlib

/-!
# gdxsv patch core: ring-buffer queues, replacement handlers, patch installer

Shallow embedding of `ps2patch/src/main.c`, `gdxsv-patch/src/main.c` and
`gdxsv-patch/patch/main.c`.

Conventions of the embedding

* `u32` values are natural numbers; every C operation that can wrap is written
  with an explicit `% U32` (`u32add`, `u32sub`).
* `u8` values are natural numbers; a store of a `u8` keeps `value % 256` and a
  load of a `u8` yields `cell % 256`.
* The globals `gdx_initialized`, `gdx_rpc`, `gdx_rxq`, `gdx_txq` and the address
  space reached through `read8` / `write8` / `write32` are the fields of one
  explicit `State` record.  The address space is a separate component: it does
  not alias the queue and command-channel records.
* `gdx_debug` / `gdx_info` only forward to an external print routine; they read
  state but never change it and are left out of the state transformers.
-/

set_option linter.unusedVariables false

namespace Gdxsv

/-! ## Machine integers -/

/-- Modulus of the C type `u32` (`unsigned int`). -/
def U32 : Nat := 4294967296

/-- Addition of two `u32` values. -/
def u32add (a b : Nat) : Nat := (a + b) % U32

/-- Subtraction of two `u32` values (wraps on underflow). -/
def u32sub (a b : Nat) : Nat := (a % U32 + U32 - b % U32) % U32

/-- The line `#define BUFSIZE 4096` of `ps2patch/src/main.c` and `gdxsv-patch/src/main.c`. -/
def BUFSIZE : Nat := 4096

/-! ## Ring buffer queue (`ps2patch/src/main.c` 34-39, 103-125; the text of
`gdxsv-patch/src/main.c` 16-21, 84-106 is the same) -/

/-- The record `struct gdx_queue { char tag[4]; u32 head; u32 tail; u8 buf[BUFSIZE]; }`.
`buf` is indexed by the `u32` index the code uses. -/
structure gdx_queue where
  tag : List Nat
  head : Nat
  tail : Nat
  buf : Nat → Nat

/-- `q->head = 0; q->tail = 0;` -/
def gdx_queue_init (q : gdx_queue) : gdx_queue :=
  { q with head := 0, tail := 0 }

/-- `return (q->tail + BUFSIZE - q->head) % BUFSIZE;` in `u32` arithmetic. -/
def gdx_queue_size (q : gdx_queue) : Nat :=
  (u32sub (u32add q.tail BUFSIZE) q.head) % BUFSIZE

/-- `return BUFSIZE - gdx_queue_size(q) - 1;` in `u32` arithmetic. -/
def gdx_queue_avail (q : gdx_queue) : Nat :=
  u32sub (u32sub BUFSIZE (gdx_queue_size q)) 1

/-- `q->buf[q->tail] = data; q->tail = (q->tail + 1) % BUFSIZE;` with `data` a `u8`. -/
def gdx_queue_push (q : gdx_queue) (data : Nat) : gdx_queue :=
  { q with
    buf := fun i => if i = q.tail then data % 256 else q.buf i
    tail := (u32add q.tail 1) % BUFSIZE }

/-- `u8 ret = q->buf[q->head]; q->head = (q->head + 1) % BUFSIZE; return ret;`
The first component is the returned byte, the second the queue afterwards. -/
def gdx_queue_pop (q : gdx_queue) : Nat × gdx_queue :=
  (q.buf q.head % 256, { q with head := (u32add q.head 1) % BUFSIZE })

/-! ## Address accessor (`ps2patch/src/main.c` 69-97) -/

/-- The address space seen through the raw accessors, byte by byte, and the number of
store operations executed so far through `write8` / `write32`. -/
structure Mem where
  bytes : Nat → Nat
  stores : Nat

/-- `u8* p = addr; return *p;` -/
def read8 (m : Mem) (addr : Nat) : Nat :=
  m.bytes (addr % U32) % 256

/-- `u8* p = addr; *p = value;` -/
def write8 (m : Mem) (addr value : Nat) : Mem :=
  { bytes := fun a => if a = addr % U32 then value % 256 else m.bytes a
    stores := m.stores + 1 }

/-- `u32* p = addr; return *p;` on the little-endian target: the four bytes at `addr`. -/
def read32 (m : Mem) (addr : Nat) : Nat :=
  read8 m addr + 256 * read8 m (addr + 1) + 65536 * read8 m (addr + 2)
    + 16777216 * read8 m (addr + 3)

/-- `u32* p = addr; *p = value;` on the little-endian target: one store of four bytes. -/
def write32 (m : Mem) (addr value : Nat) : Mem :=
  { bytes := fun a =>
      if a = addr % U32 then value % 256
      else if a = (addr + 1) % U32 then value / 256 % 256
      else if a = (addr + 2) % U32 then value / 65536 % 256
      else if a = (addr + 3) % U32 then value / 16777216 % 256
      else m.bytes a
    stores := m.stores + 1 }

/-! ## Module state -/

/-- `enum { RPC_TCP_OPEN = 1, RPC_TCP_CLOSE = 2 }` -/
def RPC_TCP_OPEN : Nat := 1

/-- Second member of the command-code enum. -/
def RPC_TCP_CLOSE : Nat := 2

/-- The record `struct gdx_rpc_t` (`ps2patch/src/main.c` 21-32). -/
structure gdx_rpc_t where
  tag : List Nat
  request : Nat
  response : Nat
  param1 : Nat
  param2 : Nat
  param3 : Nat
  param4 : Nat
  name1 : List Nat
  name2 : List Nat

/-- The globals of the patch together with the address space.  `gdx_rpc` exists in
`ps2patch/src/main.c` only; the handlers of `gdxsv-patch/src/main.c` never touch it. -/
structure State where
  mem : Mem
  gdx_initialized : Int
  gdx_rpc : gdx_rpc_t
  gdx_rxq : gdx_queue
  gdx_txq : gdx_queue

/-- `return 0x0c000000 + addr / 4;` in `u32` arithmetic. -/
def OP_JAL (addr : Nat) : Nat :=
  u32add 0x0c000000 (addr / 4)

/-- The loop `for (i = 0; i < len; ++i) gdx_queue_push(&gdx_txq, read8(ptr + i));`. -/
def sendLoop (s : State) (ptr len : Nat) : State :=
  (List.range len).foldl
    (fun st i => { st with gdx_txq := gdx_queue_push st.gdx_txq (read8 st.mem (u32add ptr i)) })
    s

/-- The loop `for (i = 0; i < len; ++i) write8(ptr + i, gdx_queue_pop(&gdx_rxq));`. -/
def recvLoop (s : State) (ptr len : Nat) : State :=
  (List.range len).foldl
    (fun st i =>
      { st with
        mem := write8 st.mem (u32add ptr i) (gdx_queue_pop st.gdx_rxq).1
        gdx_rxq := (gdx_queue_pop st.gdx_rxq).2 })
    s

/-- Addresses of the replacement handlers, fixed when the patch is linked. -/
structure HandlerAddrs where
  gdx_Ave_TcpOpen : Nat
  gdx_Ave_TcpClose : Nat
  gdx_Ave_TcpSend : Nat
  gdx_Ave_TcpRecv : Nat
  gdx_McsReceive : Nat
  gdx_TcpGetStatus : Nat
  gdx_LobbyToMcsInitSocket : Nat
  gdx_gethostbyname_ps2_0 : Nat
  gdx_gethostbyname_ps2_1 : Nat
  gdx_gethostbyname_ps2_release : Nat

/-- Apply `write32` at `addr` to the address space of a state. -/
def store32 (s : State) (addr value : Nat) : State :=
  { s with mem := write32 s.mem addr value }

/-! ## Handler set of `ps2patch/src/main.c` -/

namespace Ps2patch

/-- Function `gdx_TcpGetStatus` (127-138); `retvalue` and `readable_size` are `u32`.
The first component is the returned value. -/
def gdx_TcpGetStatus (s : State) (sock dst : Nat) : Nat × State :=
  let n := gdx_queue_size s.gdx_rxq
  let retvalue := if 0 < n then 0 else U32 - 1
  let readable_size := if 0 < n then (if n ≤ 0x7fff then n else 0x7fff) else 0
  let s1 := store32 s dst 0
  let s2 := store32 s1 (u32add dst 4) readable_size
  (retvalue, s2)

/-- Function `gdx_Ave_TcpSend` (140-162). -/
def gdx_Ave_TcpSend (s : State) (sock ptr len : Nat) : Nat × State :=
  if len = 0 then (0, s)
  else if gdx_queue_avail s.gdx_txq < len then (0, s)
  else (len, sendLoop s ptr len)

/-- Function `gdx_Ave_TcpRecv` (164-182); `return -1` is `U32 - 1` as `u32`. -/
def gdx_Ave_TcpRecv (s : State) (sock ptr len : Nat) : Nat × State :=
  if gdx_queue_size s.gdx_rxq < len then (U32 - 1, s)
  else (len, recvLoop s ptr len)

/-- Function `gdx_McsReceive` (184-212). -/
def gdx_McsReceive (s : State) (ptr len : Nat) : Nat × State :=
  if len = 0 then (0, s)
  else
    let len1 := if gdx_queue_size s.gdx_rxq < len then gdx_queue_size s.gdx_rxq else len
    if len1 = 0 then (0, s)
    else (len1, recvLoop s ptr len1)

/-- Function `gdx_Ave_TcpOpen` (214-229). -/
def gdx_Ave_TcpOpen (s : State) (ip port : Nat) : Nat × State :=
  let port1 := (port >>> 8) ||| (((port &&& 0xFF) <<< 8) % U32)
  (7, { s with
        gdx_rxq := gdx_queue_init s.gdx_rxq
        gdx_txq := gdx_queue_init s.gdx_txq
        gdx_rpc := { s.gdx_rpc with
          request := RPC_TCP_OPEN
          param1 := if ip = 0x0077 then 1 else 0
          param2 := ip
          param3 := port1 } })

/-- Function `gdx_Ave_TcpClose` (231-238). -/
def gdx_Ave_TcpClose (s : State) (sock : Nat) : Nat × State :=
  (0, { s with
        gdx_rxq := gdx_queue_init s.gdx_rxq
        gdx_txq := gdx_queue_init s.gdx_txq
        gdx_rpc := { s.gdx_rpc with request := RPC_TCP_CLOSE, param1 := sock } })

/-- Function `gdx_LobbyToMcsInitSocket` (240-243). -/
def gdx_LobbyToMcsInitSocket (s : State) : State :=
  { s with gdx_rxq := gdx_queue_init s.gdx_rxq, gdx_txq := gdx_queue_init s.gdx_txq }

/-- Function `gdx_gethostbyname_ps2_0` (245-249). -/
def gdx_gethostbyname_ps2_0 (s : State) (hostname : Nat) : Nat × State := (7, s)

/-- Function `gdx_gethostbyname_ps2_1` (251-254). -/
def gdx_gethostbyname_ps2_1 (s : State) (ticket_id : Nat) : Nat × State := (0x0077, s)

/-- Function `gdx_gethostbyname_ps2_release` (256-259). -/
def gdx_gethostbyname_ps2_release (s : State) (ticket_id : Nat) : Nat × State := (0, s)

/-- Function `write_patch` (261-280). -/
def write_patch (h : HandlerAddrs) (s : State) : State :=
  let s := store32 s 0x003c4f58 0x0015f110
  let s := store32 s 0x0035a660 0x24030002
  let s := store32 s 0x00381da4 (OP_JAL h.gdx_Ave_TcpOpen)
  let s := store32 s 0x00382024 (OP_JAL h.gdx_Ave_TcpClose)
  let s := store32 s 0x00381fb4 (OP_JAL h.gdx_Ave_TcpSend)
  let s := store32 s 0x00381f7c (OP_JAL h.gdx_Ave_TcpRecv)
  let s := store32 s 0x0037fd2c (OP_JAL h.gdx_McsReceive)
  let s := store32 s 0x00357e34 (OP_JAL h.gdx_TcpGetStatus)
  let s := store32 s 0x0035a174 (OP_JAL h.gdx_LobbyToMcsInitSocket)
  let s := store32 s 0x00359e04 (OP_JAL h.gdx_gethostbyname_ps2_0)
  let s := store32 s 0x00359e78 (OP_JAL h.gdx_gethostbyname_ps2_1)
  let s := store32 s 0x00359ea4 (OP_JAL h.gdx_gethostbyname_ps2_release)
  store32 s 0x00359ec4 (OP_JAL h.gdx_gethostbyname_ps2_release)

/-- Function `gdx_main` (282-295). -/
def gdx_main (h : HandlerAddrs) (s : State) : State :=
  if s.gdx_initialized ≠ 0 then s
  else
    let s1 := write_patch h s
    { s1 with
      gdx_rxq := gdx_queue_init s1.gdx_rxq
      gdx_txq := gdx_queue_init s1.gdx_txq
      gdx_initialized := 1 }

end Ps2patch

/-! ## Handler set of `gdxsv-patch/src/main.c`

`gdx_Ave_TcpSend`, `gdx_Ave_TcpRecv` and `gdx_LobbyToMcsInitSocket` (121-163, 194-197) have
the same text as in `ps2patch/src/main.c`; the functions below are those that differ. -/

namespace GdxsvPatch

/-- Function `gdx_TcpGetStatus` (108-119); `retvalue` and `readable_size` are `u16` here, so
`retvalue = -1` holds `0xffff`, widened to `u32` by the `return`. -/
def gdx_TcpGetStatus (s : State) (sock dst : Nat) : Nat × State :=
  let n := gdx_queue_size s.gdx_rxq
  let retvalue := if 0 < n then 0 else (U32 - 1) % 65536
  let readable_size := if 0 < n then (if n ≤ 0x7fff then n else 0x7fff) % 65536 else 0
  let s1 := store32 s dst 0
  let s2 := store32 s1 (u32add dst 4) readable_size
  (retvalue, s2)

/-- Function `gdx_McsReceive` (165-192).  It is declared `void`: the operands of its `return`
statements (`0`, `-1`, `len`) are discarded and the caller is handed no value, so the
embedding yields the state only. -/
def gdx_McsReceive (s : State) (ptr len : Nat) : State :=
  if len = 0 then s
  else
    let len1 := if gdx_queue_size s.gdx_rxq < len then gdx_queue_size s.gdx_rxq else len
    if len1 = 0 then s
    else recvLoop s ptr len1

/-- Function `patch_skip_modem` (199-206). -/
def patch_skip_modem (s : State) : State :=
  let s := store32 s 0x003c4f58 0x0015f110
  store32 s 0x0035a660 0x24030002

/-- Function `patch_tcp` (208-214). -/
def patch_tcp (h : HandlerAddrs) (s : State) : State :=
  let s := store32 s 0x00381fb4 (OP_JAL h.gdx_Ave_TcpSend)
  let s := store32 s 0x00381f7c (OP_JAL h.gdx_Ave_TcpRecv)
  let s := store32 s 0x0037fd2c (OP_JAL h.gdx_McsReceive)
  let s := store32 s 0x00357e34 (OP_JAL h.gdx_TcpGetStatus)
  store32 s 0x0035a174 (OP_JAL h.gdx_LobbyToMcsInitSocket)

/-- Function `gdx_main` (216-230). -/
def gdx_main (h : HandlerAddrs) (s : State) : State :=
  if s.gdx_initialized ≠ 0 then s
  else
    let s1 := patch_tcp h (patch_skip_modem s)
    { s1 with
      gdx_rxq := gdx_queue_init s1.gdx_rxq
      gdx_txq := gdx_queue_init s1.gdx_txq
      gdx_initialized := 1 }

end GdxsvPatch

/-! ## Vocabulary for stating queue properties -/

/-- Both indices address a slot of the `BUFSIZE`-byte storage. -/
def InRange (q : gdx_queue) : Prop := q.head < BUFSIZE ∧ q.tail < BUFSIZE

instance (q : gdx_queue) : Decidable (InRange q) := by
  unfold InRange; exact inferInstance

/-- The resident bytes, oldest first: `buf[head], buf[head+1], ...` (indices modulo
`BUFSIZE`), `gdx_queue_size q` of them. -/
def contents (q : gdx_queue) : List Nat :=
  (List.range (gdx_queue_size q)).map (fun i => q.buf ((q.head + i) % BUFSIZE) % 256)

/-- One queue operation of a client: push a byte, or pop. -/
inductive QueueOp where
  | push (data : Nat)
  | pop
  deriving DecidableEq, Repr

/-- The queue after a sequence of operations. -/
def runOps (q : gdx_queue) : List QueueOp → gdx_queue
  | [] => q
  | QueueOp.push d :: ops => runOps (gdx_queue_push q d) ops
  | QueueOp.pop :: ops => runOps (gdx_queue_pop q).2 ops

/-- The bytes returned by the pops of a sequence of operations, in order. -/
def poppedBytes (q : gdx_queue) : List QueueOp → List Nat
  | [] => []
  | QueueOp.push d :: ops => poppedBytes (gdx_queue_push q d) ops
  | QueueOp.pop :: ops => (gdx_queue_pop q).1 :: poppedBytes (gdx_queue_pop q).2 ops

/-- The bytes handed to the pushes of a sequence of operations (as `u8`), in order. -/
def pushedBytes : List QueueOp → List Nat
  | [] => []
  | QueueOp.push d :: ops => (d % 256) :: pushedBytes ops
  | QueueOp.pop :: ops => pushedBytes ops

/-- The caller contracts: every push happens with `gdx_queue_avail >= 1`, every pop with
`gdx_queue_size >= 1`. -/
def respectsContract (q : gdx_queue) : List QueueOp → Bool
  | [] => true
  | QueueOp.push d :: ops =>
      decide (1 ≤ gdx_queue_avail q) && respectsContract (gdx_queue_push q d) ops
  | QueueOp.pop :: ops =>
      decide (1 ≤ gdx_queue_size q) && respectsContract (gdx_queue_pop q).2 ops

/-! ## Concrete states used to exercise the theorems -/

/-- A queue whose storage holds the pattern `i % 251` and whose indices are given. -/
def sampleQueue (head tail : Nat) : gdx_queue :=
  { tag := [113, 0, 0, 0], head := head, tail := tail, buf := fun i => i % 251 }

/-- An address space holding the pattern `(7 * a + 3) % 256`, with no store executed yet. -/
def sampleMem : Mem :=
  { bytes := fun a => (7 * a + 3) % 256, stores := 0 }

/-- A command-channel record with all scalar fields zero except `response` and `param4`. -/
def sampleRpc : gdx_rpc_t :=
  { tag := [114, 112, 99, 0], request := 0, response := 5, param1 := 0, param2 := 0,
    param3 := 0, param4 := 9, name1 := List.replicate 128 0, name2 := List.replicate 128 0 }

/-- A state over `sampleMem` and `sampleRpc` with the given flag and queues. -/
def sampleState (initialized : Int) (rxq txq : gdx_queue) : State :=
  { mem := sampleMem, gdx_initialized := initialized, gdx_rpc := sampleRpc,
    gdx_rxq := rxq, gdx_txq := txq }

/-- A contract-respecting client run: two pushes (the second byte given as `0x142`, which the
`u8` parameter keeps as `0x42`), a pop, a push and two pops. -/
def sampleOps : List QueueOp :=
  [QueueOp.push 0x41, QueueOp.push 0x142, QueueOp.pop, QueueOp.push 3, QueueOp.pop, QueueOp.pop]

/-- Handler addresses of a sample link of the patch (4-byte aligned, inside the patch area). -/
def sampleAddrs : HandlerAddrs :=
  { gdx_Ave_TcpOpen := 0x000ff000, gdx_Ave_TcpClose := 0x000ff040,
    gdx_Ave_TcpSend := 0x000ff080, gdx_Ave_TcpRecv := 0x000ff0c0,
    gdx_McsReceive := 0x000ff100, gdx_TcpGetStatus := 0x000ff140,
    gdx_LobbyToMcsInitSocket := 0x000ff180, gdx_gethostbyname_ps2_0 := 0x000ff1c0,
    gdx_gethostbyname_ps2_1 := 0x000ff200, gdx_gethostbyname_ps2_release := 0x000ff240 }

/-! ## Legacy variant (`gdxsv-patch/patch/main.c`) -/

namespace Legacy

/-- The line `#define BUFSIZE 1024` of `gdxsv-patch/patch/main.c`. -/
def BUFSIZE : Nat := 1024

/-- The record `struct gdx_queue { u32 head; u32 tail; char buf[BUFSIZE]; }` (25-29). -/
structure gdx_queue where
  head : Nat
  tail : Nat
  buf : Nat → Nat

/-- Function `gdx_queue_size` (41-44):
`if (q->tail > q->head) return q->tail - q->head; return q->tail + BUFSIZE - q->head;` -/
def gdx_queue_size (q : gdx_queue) : Nat :=
  if q.tail > q.head then u32sub q.tail q.head
  else u32sub (u32add q.tail BUFSIZE) q.head

/-- Function `gdx_queue_pop` (51-55):
`char ret = q->buf[q->head]; q->head = (q->head + 1) % BUFSIZE; return ret;` -/
def gdx_queue_pop (q : gdx_queue) : Nat × gdx_queue :=
  (q.buf q.head % 256, { q with head := (u32add q.head 1) % BUFSIZE })

/-- The globals `gdx_rxq`, `gdx_txq` (33-34) and the address space written through `p`. -/
structure State where
  mem : Mem
  gdx_rxq : gdx_queue
  gdx_txq : gdx_queue

/-- Function `gdx_tcp_stat` (57-59). -/
def gdx_tcp_stat (s : State) (arg : Nat) : Nat :=
  gdx_queue_size s.gdx_rxq

/-- Function `gdx_tcp_recv` (61-70); `return -1` is `U32 - 1` as `u32`, and `p[i] = ...`
stores one byte at address `p + i`. -/
def gdx_tcp_recv (s : State) (arg p len : Nat) : Nat × State :=
  if gdx_queue_size s.gdx_rxq < len then (U32 - 1, s)
  else
    (len, (List.range len).foldl
      (fun st i =>
        { st with
          mem := write8 st.mem (u32add p i) (gdx_queue_pop st.gdx_rxq).1
          gdx_rxq := (gdx_queue_pop st.gdx_rxq).2 })
      s)

end Legacy

/-- Both queues of a state have their indices inside the storage. -/
def QueuesInRange (s : State) : Prop := InRange s.gdx_rxq ∧ InRange s.gdx_txq

/-- The statically allocated, zero-initialised queue of the legacy variant. -/
def legacyZeroQueue : Legacy.gdx_queue :=
  { head := 0, tail := 0, buf := fun _ => 0 }

/-- The legacy state at program start: both queues zero-initialised. -/
def legacyStartState : Legacy.State :=
  { mem := sampleMem, gdx_rxq := legacyZeroQueue, gdx_txq := legacyZeroQueue }

/-! ## Queue lemmas -/

theorem gdx_queue_size_lt (q : gdx_queue) : gdx_queue_size q < BUFSIZE := by
  simp only [gdx_queue_size, BUFSIZE]
  omega

theorem gdx_queue_size_of_inRange (q : gdx_queue) (h : InRange q) :
    gdx_queue_size q = (q.tail + BUFSIZE - q.head) % BUFSIZE := by
  simp only [InRange, gdx_queue_size, u32sub, u32add, U32, BUFSIZE] at *
  omega

theorem gdx_queue_avail_eq (q : gdx_queue) :
    gdx_queue_avail q = BUFSIZE - 1 - gdx_queue_size q := by
  have h := gdx_queue_size_lt q
  simp only [gdx_queue_avail, u32sub, U32, BUFSIZE] at *
  omega

theorem inRange_init (q : gdx_queue) : InRange (gdx_queue_init q) := by
  simp [InRange, gdx_queue_init, BUFSIZE]

theorem inRange_push (q : gdx_queue) (d : Nat) : InRange q → InRange (gdx_queue_push q d) := by
  intro h
  simp only [InRange, gdx_queue_push, u32add, U32, BUFSIZE] at *
  omega

theorem inRange_pop (q : gdx_queue) : InRange q → InRange (gdx_queue_pop q).2 := by
  intro h
  simp only [InRange, gdx_queue_pop, u32add, U32, BUFSIZE] at *
  omega

theorem size_push (q : gdx_queue) (d : Nat) (ha : 1 ≤ gdx_queue_avail q) :
    gdx_queue_size (gdx_queue_push q d) = gdx_queue_size q + 1 := by
  rw [gdx_queue_avail_eq] at ha
  simp only [gdx_queue_size, gdx_queue_push, u32sub, u32add, U32, BUFSIZE] at *
  omega

theorem size_pop (q : gdx_queue) (hs : 1 ≤ gdx_queue_size q) :
    gdx_queue_size q = gdx_queue_size (gdx_queue_pop q).2 + 1 := by
  simp only [gdx_queue_size, gdx_queue_pop, u32sub, u32add, U32, BUFSIZE] at *
  omega

theorem contents_init (q : gdx_queue) : contents (gdx_queue_init q) = [] := by
  simp [contents, gdx_queue_init, gdx_queue_size, u32sub, u32add, U32, BUFSIZE]

theorem length_contents (q : gdx_queue) : (contents q).length = gdx_queue_size q := by
  simp [contents]

theorem contents_push (q : gdx_queue) (d : Nat) (h : InRange q) (ha : 1 ≤ gdx_queue_avail q) :
    contents (gdx_queue_push q d) = contents q ++ [d % 256] := by
  have hs := size_push q d ha
  have hlt := gdx_queue_size_lt q
  have hsz := gdx_queue_size_of_inRange q h
  unfold contents
  rw [hs, List.range_succ, List.map_append]
  congr 1
  · apply List.map_congr_left
    intro i hi
    have hi' : i < gdx_queue_size q := List.mem_range.mp hi
    have hne : (q.head + i) % BUFSIZE ≠ q.tail := by
      simp only [InRange, BUFSIZE] at *
      omega
    simp [gdx_queue_push, hne]
  · have heq : (q.head + gdx_queue_size q) % BUFSIZE = q.tail := by
      simp only [InRange, BUFSIZE] at *
      omega
    simp [gdx_queue_push, heq]

theorem contents_pop (q : gdx_queue) (h : InRange q) (hs : 1 ≤ gdx_queue_size q) :
    contents q = (gdx_queue_pop q).1 :: contents (gdx_queue_pop q).2 := by
  have hsz := size_pop q hs
  unfold contents
  rw [hsz, List.range_succ_eq_map, List.map_cons, List.map_map]
  have h0 : q.head % BUFSIZE = q.head := by
    simp only [InRange, BUFSIZE] at *
    omega
  congr 1
  · simp [gdx_queue_pop, h0]
  · apply List.map_congr_left
    intro i _
    have hidx : ((u32add q.head 1) % BUFSIZE + i) % BUFSIZE = (q.head + (i + 1)) % BUFSIZE := by
      simp only [InRange, u32add, U32, BUFSIZE] at *
      omega
    simp [gdx_queue_pop, hidx]

/-- Bookkeeping identity behind FIFO order: what was resident plus what was pushed is what
was popped followed by what is still resident. -/
theorem fifo_bookkeeping (ops : List QueueOp) :
    ∀ q : gdx_queue, InRange q → respectsContract q ops = true →
      contents q ++ pushedBytes ops = poppedBytes q ops ++ contents (runOps q ops) := by
  induction ops with
  | nil => intro q _ _; simp [pushedBytes, poppedBytes, runOps]
  | cons op ops ih =>
    intro q hq hr
    cases op with
    | push d =>
      simp only [respectsContract, Bool.and_eq_true, decide_eq_true_eq] at hr
      have := ih (gdx_queue_push q d) (inRange_push q d hq) hr.2
      rw [contents_push q d hq hr.1] at this
      simpa [pushedBytes, poppedBytes, runOps] using this
    | pop =>
      simp only [respectsContract, Bool.and_eq_true, decide_eq_true_eq] at hr
      have := ih (gdx_queue_pop q).2 (inRange_pop q hq) hr.2
      rw [contents_pop q hq hr.1]
      simp only [pushedBytes, poppedBytes, runOps, List.cons_append]
      rw [this]

theorem inRange_runOps (ops : List QueueOp) :
    ∀ q : gdx_queue, InRange q → InRange (runOps q ops) := by
  induction ops with
  | nil => intro q hq; exact hq
  | cons op ops ih =>
    intro q hq
    cases op with
    | push d => exact ih _ (inRange_push q d hq)
    | pop => exact ih _ (inRange_pop q hq)

/-! ## Loop lemmas -/

theorem sendLoop_succ (s : State) (ptr n : Nat) :
    sendLoop s ptr (n + 1) =
      { sendLoop s ptr n with
        gdx_txq := gdx_queue_push (sendLoop s ptr n).gdx_txq
          (read8 (sendLoop s ptr n).mem (u32add ptr n)) } := by
  simp [sendLoop, List.range_succ, List.foldl_append]

theorem recvLoop_succ (s : State) (ptr n : Nat) :
    recvLoop s ptr (n + 1) =
      { recvLoop s ptr n with
        mem := write8 (recvLoop s ptr n).mem (u32add ptr n)
          (gdx_queue_pop (recvLoop s ptr n).gdx_rxq).1
        gdx_rxq := (gdx_queue_pop (recvLoop s ptr n).gdx_rxq).2 } := by
  simp [recvLoop, List.range_succ, List.foldl_append]

/-- The send loop changes nothing but the outbound queue. -/
theorem sendLoop_frame (s : State) (ptr n : Nat) :
    (sendLoop s ptr n).mem = s.mem ∧ (sendLoop s ptr n).gdx_rxq = s.gdx_rxq ∧
    (sendLoop s ptr n).gdx_rpc = s.gdx_rpc ∧
    (sendLoop s ptr n).gdx_initialized = s.gdx_initialized := by
  induction n with
  | zero => simp [sendLoop]
  | succ n ih => rw [sendLoop_succ]; exact ih

/-- Effect of the send loop on the outbound queue when there is room for `n` bytes. -/
theorem sendLoop_txq (s : State) (ptr : Nat) (h : InRange s.gdx_txq) :
    ∀ n : Nat, n ≤ gdx_queue_avail s.gdx_txq →
      InRange (sendLoop s ptr n).gdx_txq ∧
      gdx_queue_size (sendLoop s ptr n).gdx_txq = gdx_queue_size s.gdx_txq + n ∧
      contents (sendLoop s ptr n).gdx_txq =
        contents s.gdx_txq ++ (List.range n).map (fun i => read8 s.mem (u32add ptr i)) := by
  intro n
  induction n with
  | zero => intro _; simp [sendLoop, h]
  | succ n ih =>
    intro hn
    obtain ⟨hr, hsz, hc⟩ := ih (by omega)
    have hav : 1 ≤ gdx_queue_avail (sendLoop s ptr n).gdx_txq := by
      rw [gdx_queue_avail_eq] at hn ⊢
      omega
    have hmem := (sendLoop_frame s ptr n).1
    rw [sendLoop_succ]
    refine ⟨inRange_push _ _ hr, ?_, ?_⟩
    · show gdx_queue_size (gdx_queue_push _ _) = _
      rw [size_push _ _ hav, hsz]
      omega
    · show contents (gdx_queue_push _ _) = _
      rw [contents_push _ _ hr hav, hc, hmem, List.range_succ, List.map_append,
        List.append_assoc]
      simp [read8]

/-- The receive loop changes nothing but the address space and the inbound queue; in the
inbound queue it only advances `head`. -/
theorem recvLoop_frame (s : State) (ptr n : Nat) :
    (recvLoop s ptr n).gdx_txq = s.gdx_txq ∧ (recvLoop s ptr n).gdx_rpc = s.gdx_rpc ∧
    (recvLoop s ptr n).gdx_initialized = s.gdx_initialized ∧
    (recvLoop s ptr n).gdx_rxq.tail = s.gdx_rxq.tail ∧
    (recvLoop s ptr n).gdx_rxq.buf = s.gdx_rxq.buf ∧
    (recvLoop s ptr n).gdx_rxq.tag = s.gdx_rxq.tag ∧
    (recvLoop s ptr n).mem.stores = s.mem.stores + n := by
  induction n with
  | zero => simp [recvLoop]
  | succ n ih =>
    rw [recvLoop_succ]
    obtain ⟨h1, h2, h3, h4, h5, h6, h7⟩ := ih
    refine ⟨h1, h2, h3, ?_, ?_, ?_, ?_⟩
    · simpa [gdx_queue_pop] using h4
    · simpa [gdx_queue_pop] using h5
    · simpa [gdx_queue_pop] using h6
    · simp only [write8, h7]
      omega

/-- The receive loop leaves every byte outside `ptr, ..., ptr + n - 1` as it was. -/
theorem recvLoop_mem_other (s : State) (ptr a : Nat) :
    ∀ n : Nat, (∀ i, i < n → a ≠ u32add ptr i) →
      (recvLoop s ptr n).mem.bytes a = s.mem.bytes a := by
  intro n
  induction n with
  | zero => intro _; simp [recvLoop]
  | succ n ih =>
    intro ha
    rw [recvLoop_succ]
    have h1 := ih (fun i hi => ha i (by omega))
    have h2 : a ≠ u32add ptr n % U32 := by
      have := ha n (by omega)
      simp only [u32add, U32] at *
      omega
    simp [write8, h2, h1]

/-- Effect of the receive loop when at least `n` bytes are resident (`n` is then below
`BUFSIZE`, so the `n` destination addresses are pairwise distinct). -/
theorem recvLoop_rxq (s : State) (ptr : Nat) (h : InRange s.gdx_rxq) :
    ∀ n : Nat, n ≤ gdx_queue_size s.gdx_rxq →
      InRange (recvLoop s ptr n).gdx_rxq ∧
      gdx_queue_size s.gdx_rxq = gdx_queue_size (recvLoop s ptr n).gdx_rxq + n ∧
      contents s.gdx_rxq =
        (List.range n).map (fun i => read8 (recvLoop s ptr n).mem (u32add ptr i))
          ++ contents (recvLoop s ptr n).gdx_rxq := by
  intro n
  induction n with
  | zero => intro _; simp [recvLoop, h]
  | succ n ih =>
    intro hn
    obtain ⟨hr, hsz, hc⟩ := ih (by omega)
    have hlt := gdx_queue_size_lt s.gdx_rxq
    have hs1 : 1 ≤ gdx_queue_size (recvLoop s ptr n).gdx_rxq := by omega
    rw [recvLoop_succ]
    refine ⟨inRange_pop _ hr, ?_, ?_⟩
    · show _ = gdx_queue_size (gdx_queue_pop _).2 + (n + 1)
      have := size_pop _ hs1
      omega
    · show _ = _ ++ contents (gdx_queue_pop _).2
      rw [hc, contents_pop _ hr hs1, List.range_succ, List.map_append, List.append_assoc]
      congr 1
      · apply List.map_congr_left
        intro i hi
        have hi' : i < n := List.mem_range.mp hi
        have hne : u32add ptr i % U32 ≠ u32add ptr n % U32 := by
          simp only [u32add, U32, BUFSIZE] at *
          omega
        simp [read8, write8, hne]
      · simp [read8, write8, gdx_queue_pop]

/-! ## C1: FIFO order -/

/-- C1: for every sequence of `gdx_queue_push` / `gdx_queue_pop` operations applied to a queue
just initialised by `gdx_queue_init`, each push performed with `gdx_queue_avail >= 1` and each
pop with `gdx_queue_size >= 1`, the bytes returned by the pops are, in order, a prefix of the
bytes pushed, and after every step `gdx_queue_size <= 4095`. -/
theorem C1_fifo_order (q0 : gdx_queue) (ops : List QueueOp)
    (h : respectsContract (gdx_queue_init q0) ops = true) :
    poppedBytes (gdx_queue_init q0) ops <+: pushedBytes ops ∧
    ∀ k : Nat, gdx_queue_size (runOps (gdx_queue_init q0) (ops.take k)) ≤ 4095 := by
  constructor
  · have hb := fifo_bookkeeping ops (gdx_queue_init q0) (inRange_init q0) h
    rw [contents_init, List.nil_append] at hb
    exact ⟨_, hb.symm⟩
  · intro k
    have := gdx_queue_size_lt (runOps (gdx_queue_init q0) (ops.take k))
    simp only [BUFSIZE] at this
    omega

/-- C1 at a concrete run on a queue whose indices were 17 and 4000 before initialisation. -/
theorem C1_fifo_order_witness :
    respectsContract (gdx_queue_init (sampleQueue 17 4000)) sampleOps = true ∧
    (poppedBytes (gdx_queue_init (sampleQueue 17 4000)) sampleOps <+: pushedBytes sampleOps ∧
     ∀ k : Nat,
       gdx_queue_size (runOps (gdx_queue_init (sampleQueue 17 4000)) (sampleOps.take k)) ≤ 4095) :=
  ⟨by decide, C1_fifo_order (sampleQueue 17 4000) sampleOps (by decide)⟩

/-- The receive loop in terms of the resident bytes: the first `n` of them land at
`ptr, ..., ptr + n - 1` in order, the others stay resident. -/
theorem recvLoop_take_drop (s : State) (ptr n : Nat) (h : InRange s.gdx_rxq)
    (hn : n ≤ gdx_queue_size s.gdx_rxq) :
    (List.range n).map (fun i => read8 (recvLoop s ptr n).mem (u32add ptr i))
      = (contents s.gdx_rxq).take n ∧
    contents (recvLoop s ptr n).gdx_rxq = (contents s.gdx_rxq).drop n ∧
    gdx_queue_size (recvLoop s ptr n).gdx_rxq + n = gdx_queue_size s.gdx_rxq := by
  obtain ⟨_, hsz, hc⟩ := recvLoop_rxq s ptr h n hn
  have hlen : ((List.range n).map
      (fun i => read8 (recvLoop s ptr n).mem (u32add ptr i))).length = n := by simp
  refine ⟨?_, ?_, hsz.symm⟩
  · conv_rhs => rw [hc]
    exact (List.take_left' hlen).symm
  · conv_rhs => rw [hc]
    exact (List.drop_left' hlen).symm

/-! ## C2: send handler -/

/-- C2: `gdx_Ave_TcpSend` is all-or-nothing.  With in-range outbound indices: if `len == 0` or
`gdx_queue_avail(txq) < len` it returns 0 and leaves the whole state (so `txq`) as it was;
otherwise it returns `len`, `gdx_queue_size(txq)` grows by exactly `len`, and the bytes
appended after the resident ones are `memory[ptr], ..., memory[ptr+len-1]` in order.  With
`avail = 10`, a send of 11 returns 0 and a send of 10 returns 10 and leaves `avail == 0`.
The inbound queue is never modified. -/
theorem C2_send_all_or_nothing (s : State) (sock ptr len : Nat) (h : InRange s.gdx_txq) :
    ((len = 0 ∨ gdx_queue_avail s.gdx_txq < len) →
        Ps2patch.gdx_Ave_TcpSend s sock ptr len = (0, s)) ∧
    (¬ (len = 0 ∨ gdx_queue_avail s.gdx_txq < len) →
        (Ps2patch.gdx_Ave_TcpSend s sock ptr len).1 = len ∧
        gdx_queue_size (Ps2patch.gdx_Ave_TcpSend s sock ptr len).2.gdx_txq
          = gdx_queue_size s.gdx_txq + len ∧
        contents (Ps2patch.gdx_Ave_TcpSend s sock ptr len).2.gdx_txq
          = contents s.gdx_txq ++ (List.range len).map (fun i => read8 s.mem (u32add ptr i))) ∧
    (gdx_queue_avail s.gdx_txq = 10 →
        Ps2patch.gdx_Ave_TcpSend s sock ptr 11 = (0, s) ∧
        (Ps2patch.gdx_Ave_TcpSend s sock ptr 10).1 = 10 ∧
        gdx_queue_avail (Ps2patch.gdx_Ave_TcpSend s sock ptr 10).2.gdx_txq = 0) ∧
    (Ps2patch.gdx_Ave_TcpSend s sock ptr len).2.gdx_rxq = s.gdx_rxq := by
  refine ⟨?_, ?_, ?_, ?_⟩
  · intro hrej
    unfold Ps2patch.gdx_Ave_TcpSend
    rcases hrej with h0 | hlt
    · simp [h0]
    · by_cases h0 : len = 0
      · simp [h0]
      · simp [h0, hlt]
  · intro hacc
    have h0 : ¬ len = 0 := fun e => hacc (Or.inl e)
    have hlt : ¬ gdx_queue_avail s.gdx_txq < len := fun e => hacc (Or.inr e)
    obtain ⟨_, hsz, hc⟩ := sendLoop_txq s ptr h len (by omega)
    simp only [Ps2patch.gdx_Ave_TcpSend, h0, hlt, if_false]
    exact ⟨trivial, hsz, hc⟩
  · intro hav
    obtain ⟨_, hsz, _⟩ := sendLoop_txq s ptr h 10 (by omega)
    have hav' := hav
    rw [gdx_queue_avail_eq] at hav'
    refine ⟨by simp [Ps2patch.gdx_Ave_TcpSend, hav], by simp [Ps2patch.gdx_Ave_TcpSend, hav], ?_⟩
    simp only [Ps2patch.gdx_Ave_TcpSend, hav]
    simp only [OfNat.ofNat_ne_zero, if_false, lt_self_iff_false]
    rw [gdx_queue_avail_eq, hsz]
    omega
  · unfold Ps2patch.gdx_Ave_TcpSend
    split
    · rfl
    · split
      · rfl
      · exact (sendLoop_frame s ptr len).2.1

/-- C2 at a concrete state: outbound indices 4090 and 5 (11 bytes resident), three bytes sent
from address `0xFFFFFFFE`, so that both the buffer index and the source address wrap. -/
theorem C2_send_all_or_nothing_witness :
    InRange (sampleState 1 (sampleQueue 0 0) (sampleQueue 4090 5)).gdx_txq ∧
    contents (Ps2patch.gdx_Ave_TcpSend (sampleState 1 (sampleQueue 0 0) (sampleQueue 4090 5))
        7 0xFFFFFFFE 3).2.gdx_txq
      = contents (sampleQueue 4090 5) ++ [sampleMem.bytes 0xFFFFFFFE, sampleMem.bytes 0xFFFFFFFF,
          sampleMem.bytes 0] :=
  ⟨by decide,
   ((C2_send_all_or_nothing (sampleState 1 (sampleQueue 0 0) (sampleQueue 4090 5))
      7 0xFFFFFFFE 3 (by decide)).2.1 (by decide)).2.2.trans (by decide)⟩

/-! ## C3: blocking-style receive handler -/

/-- C3: `gdx_Ave_TcpRecv`, with in-range inbound indices.  If `gdx_queue_size(rxq) < len` it
returns `0xFFFFFFFF` and leaves the whole state (queue and memory) as it was; otherwise it
returns `len`, the `len` oldest resident bytes are at `memory[ptr..ptr+len-1]` in FIFO order
afterwards, the other resident bytes stay, and `gdx_queue_size(rxq)` decreases by exactly
`len`.  With 5 bytes resident a request for 6 returns -1 and a request for 5 returns 5 and
leaves the queue empty. -/
theorem C3_recv_blocking (s : State) (sock ptr len : Nat) (h : InRange s.gdx_rxq) :
    (gdx_queue_size s.gdx_rxq < len →
        Ps2patch.gdx_Ave_TcpRecv s sock ptr len = (0xFFFFFFFF, s)) ∧
    (len ≤ gdx_queue_size s.gdx_rxq →
        (Ps2patch.gdx_Ave_TcpRecv s sock ptr len).1 = len ∧
        (List.range len).map
            (fun i => read8 (Ps2patch.gdx_Ave_TcpRecv s sock ptr len).2.mem (u32add ptr i))
          = (contents s.gdx_rxq).take len ∧
        contents (Ps2patch.gdx_Ave_TcpRecv s sock ptr len).2.gdx_rxq
          = (contents s.gdx_rxq).drop len ∧
        gdx_queue_size (Ps2patch.gdx_Ave_TcpRecv s sock ptr len).2.gdx_rxq + len
          = gdx_queue_size s.gdx_rxq) ∧
    (gdx_queue_size s.gdx_rxq = 5 →
        Ps2patch.gdx_Ave_TcpRecv s sock ptr 6 = (0xFFFFFFFF, s) ∧
        (Ps2patch.gdx_Ave_TcpRecv s sock ptr 5).1 = 5 ∧
        gdx_queue_size (Ps2patch.gdx_Ave_TcpRecv s sock ptr 5).2.gdx_rxq = 0) := by
  refine ⟨?_, ?_, ?_⟩
  · intro hlt
    simp [Ps2patch.gdx_Ave_TcpRecv, hlt, U32]
  · intro hle
    have hnlt : ¬ gdx_queue_size s.gdx_rxq < len := by omega
    simp only [Ps2patch.gdx_Ave_TcpRecv, hnlt, if_false]
    exact ⟨trivial, recvLoop_take_drop s ptr len h hle⟩
  · intro h5
    have h3 := (recvLoop_take_drop s ptr 5 h (by omega)).2.2
    refine ⟨by simp [Ps2patch.gdx_Ave_TcpRecv, h5, U32],
      by simp [Ps2patch.gdx_Ave_TcpRecv, h5], ?_⟩
    simp only [Ps2patch.gdx_Ave_TcpRecv, h5, lt_self_iff_false, if_false]
    omega

/-- C3 at a concrete state: inbound indices 4094 and 3 (5 bytes resident), all five received
at address `0xFFFFFFFD`, so that both the buffer index and the destination address wrap. -/
theorem C3_recv_blocking_witness :
    InRange (sampleState 1 (sampleQueue 4094 3) (sampleQueue 0 0)).gdx_rxq ∧
    (List.range 5).map
        (fun i => read8 (Ps2patch.gdx_Ave_TcpRecv
          (sampleState 1 (sampleQueue 4094 3) (sampleQueue 0 0)) 7 0xFFFFFFFD 5).2.mem
          (u32add 0xFFFFFFFD i))
      = [4094 % 251, 4095 % 251, 0, 1, 2] :=
  ⟨by decide,
   ((C3_recv_blocking (sampleState 1 (sampleQueue 4094 3) (sampleQueue 0 0))
      7 0xFFFFFFFD 5 (by decide)).2.1 (by decide)).2.1.trans (by decide)⟩

/-! ## Address-accessor lemmas -/

/-- Reading back the word just stored. -/
theorem read32_write32_same (m : Mem) (a v : Nat) :
    read32 (write32 m a v) a = v % U32 := by
  have h1 : (a + 1) % U32 ≠ a % U32 := by simp only [U32]; omega
  have h2 : (a + 2) % U32 ≠ a % U32 := by simp only [U32]; omega
  have h3 : (a + 3) % U32 ≠ a % U32 := by simp only [U32]; omega
  have h4 : (a + 2) % U32 ≠ (a + 1) % U32 := by simp only [U32]; omega
  have h5 : (a + 3) % U32 ≠ (a + 1) % U32 := by simp only [U32]; omega
  have h6 : (a + 3) % U32 ≠ (a + 2) % U32 := by simp only [U32]; omega
  simp only [read32, read8, write32, h1, h2, h3, h4, h5, h6, if_true, if_false]
  simp only [U32]
  omega

/-- A word store leaves a word that shares no byte with it as it was. -/
theorem read32_write32_disjoint (m : Mem) (a b v : Nat)
    (h : ∀ j k : Nat, j < 4 → k < 4 → (b + j) % U32 ≠ (a + k) % U32) :
    read32 (write32 m a v) b = read32 m b := by
  have e : ∀ j : Nat, j < 4 → (write32 m a v).bytes ((b + j) % U32) = m.bytes ((b + j) % U32) := by
    intro j hj
    have h0 := h j 0 hj (by omega)
    have h1 := h j 1 hj (by omega)
    have h2 := h j 2 hj (by omega)
    have h3 := h j 3 hj (by omega)
    simp only [Nat.add_zero] at h0
    simp only [write32, h0, h1, h2, h3, if_false]
  have e0 := e 0 (by omega)
  simp only [Nat.add_zero] at e0
  simp only [read32, read8, e0, e 1 (by omega), e 2 (by omega), e 3 (by omega)]

/-- The two words of the status record as `gdx_TcpGetStatus` leaves them: it stores `0` at
`dst`, then `v` at `dst + 4`. -/
theorem status_record_words (m : Mem) (dst v : Nat) :
    read32 (write32 (write32 m dst 0) (u32add dst 4) v) dst = 0 ∧
    read32 (write32 (write32 m dst 0) (u32add dst 4) v) (u32add dst 4) = v % U32 := by
  refine ⟨?_, read32_write32_same _ _ _⟩
  rw [read32_write32_disjoint, read32_write32_same]
  · rfl
  · intro j k hj hk
    simp only [u32add, U32]
    omega

/-! ## C4: status query output record -/

/-- C4 fails as stated: on an empty inbound queue `gdx_TcpGetStatus` leaves `0` in the word at
`dst`, not the `-1` sentinel (the sentinel is only the returned value). -/
theorem C4_status_record_counterexample :
    gdx_queue_size (sampleState 1 (sampleQueue 0 0) (sampleQueue 0 0)).gdx_rxq = 0 ∧
    read32 (Ps2patch.gdx_TcpGetStatus (sampleState 1 (sampleQueue 0 0) (sampleQueue 0 0))
      7 0x100).2.mem 0x100 = 0 ∧
    read32 (Ps2patch.gdx_TcpGetStatus (sampleState 1 (sampleQueue 0 0) (sampleQueue 0 0))
      7 0x100).2.mem 0x100 ≠ 0xFFFFFFFF := by
  decide

/-- C4 (amended): after `gdx_TcpGetStatus` the word at `dst` is `0` whatever the inbound queue
holds, and the word at `dst + 4` is `min(gdx_queue_size(rxq), 0x7fff)`; the status code, `0`
when the inbound queue holds at least one byte and `0xFFFFFFFF` otherwise, is the returned
value.  100 resident bytes give word 1 = 100 and result code 0; an empty queue gives result
code `0xFFFFFFFF` and word 1 = 0.  The queues and the command channel are not modified. -/
theorem C4_status_record (s : State) (sock dst : Nat) :
    read32 (Ps2patch.gdx_TcpGetStatus s sock dst).2.mem dst = 0 ∧
    read32 (Ps2patch.gdx_TcpGetStatus s sock dst).2.mem (u32add dst 4)
      = min (gdx_queue_size s.gdx_rxq) 0x7fff ∧
    (Ps2patch.gdx_TcpGetStatus s sock dst).1
      = (if 0 < gdx_queue_size s.gdx_rxq then 0 else 0xFFFFFFFF) ∧
    (gdx_queue_size s.gdx_rxq = 100 →
      read32 (Ps2patch.gdx_TcpGetStatus s sock dst).2.mem (u32add dst 4) = 100 ∧
      (Ps2patch.gdx_TcpGetStatus s sock dst).1 = 0) ∧
    (gdx_queue_size s.gdx_rxq = 0 →
      read32 (Ps2patch.gdx_TcpGetStatus s sock dst).2.mem (u32add dst 4) = 0 ∧
      (Ps2patch.gdx_TcpGetStatus s sock dst).1 = 0xFFFFFFFF) ∧
    (Ps2patch.gdx_TcpGetStatus s sock dst).2.gdx_rxq = s.gdx_rxq ∧
    (Ps2patch.gdx_TcpGetStatus s sock dst).2.gdx_txq = s.gdx_txq ∧
    (Ps2patch.gdx_TcpGetStatus s sock dst).2.gdx_rpc = s.gdx_rpc := by
  have hlt := gdx_queue_size_lt s.gdx_rxq
  simp only [BUFSIZE] at hlt
  have hw := status_record_words s.mem dst
    (if 0 < gdx_queue_size s.gdx_rxq then
      (if gdx_queue_size s.gdx_rxq ≤ 0x7fff then gdx_queue_size s.gdx_rxq else 0x7fff) else 0)
  have hle : gdx_queue_size s.gdx_rxq ≤ 0x7fff := by omega
  simp only [hle, if_true] at hw
  have hw1 : read32 (Ps2patch.gdx_TcpGetStatus s sock dst).2.mem dst = 0 := by
    simp only [Ps2patch.gdx_TcpGetStatus, store32, hle, if_true]
    exact hw.1
  have hw2 : read32 (Ps2patch.gdx_TcpGetStatus s sock dst).2.mem (u32add dst 4)
      = min (gdx_queue_size s.gdx_rxq) 0x7fff := by
    simp only [Ps2patch.gdx_TcpGetStatus, store32, hle, if_true]
    rw [hw.2]
    by_cases h0 : 0 < gdx_queue_size s.gdx_rxq
    · simp only [h0, if_true, U32]; omega
    · simp only [h0, if_false, U32]; omega
  have hr : (Ps2patch.gdx_TcpGetStatus s sock dst).1
      = (if 0 < gdx_queue_size s.gdx_rxq then 0 else 0xFFFFFFFF) := by
    simp [Ps2patch.gdx_TcpGetStatus, U32]
  refine ⟨hw1, hw2, hr, ?_, ?_, rfl, rfl, rfl⟩
  · intro h100
    rw [hw2, hr, h100]
    decide
  · intro h0
    rw [hw2, hr, h0]
    decide

/-! ## C5: status query return value -/

/-- C5 fails as stated: on an empty inbound queue the `ps2patch` handler returns `0xFFFFFFFF`
while the word it stored at `dst` is `0`, and the `gdxsv-patch` handler returns `0xFFFF`. -/
theorem C5_status_return_counterexample :
    gdx_queue_size (sampleState 1 (sampleQueue 0 0) (sampleQueue 0 0)).gdx_rxq = 0 ∧
    (Ps2patch.gdx_TcpGetStatus (sampleState 1 (sampleQueue 0 0) (sampleQueue 0 0))
      7 0x100).1 = 0xFFFFFFFF ∧
    read32 (Ps2patch.gdx_TcpGetStatus (sampleState 1 (sampleQueue 0 0) (sampleQueue 0 0))
      7 0x100).2.mem 0x100 = 0 ∧
    (GdxsvPatch.gdx_TcpGetStatus (sampleState 1 (sampleQueue 0 0) (sampleQueue 0 0))
      7 0x100).1 = 0xFFFF := by
  decide

/-- C5 (amended): in both variants `gdx_TcpGetStatus` returns `0` when the inbound queue is
non-empty, which is also the word it stores at `dst`; both variants store `0` at `dst` for
every queue state; and on an empty inbound queue the `ps2patch` variant returns `0xFFFFFFFF`,
the value `gdx_Ave_TcpRecv` returns there for any request of at least one byte. -/
theorem C5_status_return (s : State) (sock dst : Nat) :
    (0 < gdx_queue_size s.gdx_rxq →
      (Ps2patch.gdx_TcpGetStatus s sock dst).1 = 0 ∧
      read32 (Ps2patch.gdx_TcpGetStatus s sock dst).2.mem dst
        = (Ps2patch.gdx_TcpGetStatus s sock dst).1 ∧
      (GdxsvPatch.gdx_TcpGetStatus s sock dst).1 = 0 ∧
      read32 (GdxsvPatch.gdx_TcpGetStatus s sock dst).2.mem dst
        = (GdxsvPatch.gdx_TcpGetStatus s sock dst).1) ∧
    read32 (Ps2patch.gdx_TcpGetStatus s sock dst).2.mem dst = 0 ∧
    read32 (GdxsvPatch.gdx_TcpGetStatus s sock dst).2.mem dst = 0 ∧
    (gdx_queue_size s.gdx_rxq = 0 →
      (Ps2patch.gdx_TcpGetStatus s sock dst).1 = 0xFFFFFFFF ∧
      ∀ sock2 ptr len : Nat, 0 < len →
        (Ps2patch.gdx_Ave_TcpRecv s sock2 ptr len).1
          = (Ps2patch.gdx_TcpGetStatus s sock dst).1) := by
  have hp : read32 (Ps2patch.gdx_TcpGetStatus s sock dst).2.mem dst = 0 := by
    simp only [Ps2patch.gdx_TcpGetStatus, store32]
    exact (status_record_words s.mem dst _).1
  have hg : read32 (GdxsvPatch.gdx_TcpGetStatus s sock dst).2.mem dst = 0 := by
    simp only [GdxsvPatch.gdx_TcpGetStatus, store32]
    exact (status_record_words s.mem dst _).1
  refine ⟨?_, hp, hg, ?_⟩
  · intro hpos
    have hp1 : (Ps2patch.gdx_TcpGetStatus s sock dst).1 = 0 := by
      simp [Ps2patch.gdx_TcpGetStatus, hpos]
    have hg1 : (GdxsvPatch.gdx_TcpGetStatus s sock dst).1 = 0 := by
      simp [GdxsvPatch.gdx_TcpGetStatus, hpos]
    exact ⟨hp1, by rw [hp, hp1], hg1, by rw [hg, hg1]⟩
  · intro h0
    refine ⟨by simp [Ps2patch.gdx_TcpGetStatus, h0, U32], ?_⟩
    intro sock2 ptr len hlen
    simp [Ps2patch.gdx_TcpGetStatus, Ps2patch.gdx_Ave_TcpRecv, h0, hlen]

/-! ## C6: open handler -/

/-- The endian fix of `gdx_Ave_TcpOpen` on a 16-bit value, in arithmetic form. -/
theorem port_swap_eq (port : Nat) (hp : port ≤ 0xFFFF) :
    (port >>> 8) ||| (((port &&& 0xFF) <<< 8) % U32) = (port % 256) * 256 + port / 256 := by
  have hand : port &&& 0xFF = port % 256 := Nat.and_pow_two_sub_one_eq_mod port 8
  have hlt : port / 256 < 2 ^ 8 := by
    have : (2 : Nat) ^ 8 = 256 := by norm_num
    omega
  have hor := Nat.mul_add_lt_is_or hlt (port % 256)
  have hsmall : port % 256 * 2 ^ 8 % U32 = port % 256 * 2 ^ 8 := by
    have : (2 : Nat) ^ 8 = 256 := by norm_num
    simp only [U32]
    omega
  rw [hand, Nat.shiftRight_eq_div_pow, Nat.shiftLeft_eq, hsmall, Nat.lor_comm,
    Nat.mul_comm (port % 256) (2 ^ 8), ← hor]
  norm_num
  omega

/-- C6: `gdx_Ave_TcpOpen`, for every prior state, every `ip` and every `port <= 0xFFFF`:
afterwards both queues are empty (`head = tail = 0`), `gdx_rpc.request = RPC_TCP_OPEN = 1`,
`gdx_rpc.param1` is 1 exactly when `ip` is `0x0077` and 0 otherwise, `gdx_rpc.param2 = ip`,
`gdx_rpc.param3` is `((port & 0xFF) << 8) | (port >> 8)`, that is `port` with its two bytes
exchanged, so `0x1234` is stored as `0x3412`, and the returned socket identifier is 7. -/
theorem C6_open_handler (s : State) (ip port : Nat) (hp : port ≤ 0xFFFF) :
    (Ps2patch.gdx_Ave_TcpOpen s ip port).2.gdx_rxq.head = 0 ∧
    (Ps2patch.gdx_Ave_TcpOpen s ip port).2.gdx_rxq.tail = 0 ∧
    (Ps2patch.gdx_Ave_TcpOpen s ip port).2.gdx_txq.head = 0 ∧
    (Ps2patch.gdx_Ave_TcpOpen s ip port).2.gdx_txq.tail = 0 ∧
    gdx_queue_size (Ps2patch.gdx_Ave_TcpOpen s ip port).2.gdx_rxq = 0 ∧
    gdx_queue_size (Ps2patch.gdx_Ave_TcpOpen s ip port).2.gdx_txq = 0 ∧
    (Ps2patch.gdx_Ave_TcpOpen s ip port).2.gdx_rpc.request = RPC_TCP_OPEN ∧
    RPC_TCP_OPEN = 1 ∧
    (ip = 0x0077 → (Ps2patch.gdx_Ave_TcpOpen s ip port).2.gdx_rpc.param1 = 1) ∧
    (ip ≠ 0x0077 → (Ps2patch.gdx_Ave_TcpOpen s ip port).2.gdx_rpc.param1 = 0) ∧
    (Ps2patch.gdx_Ave_TcpOpen s ip port).2.gdx_rpc.param2 = ip ∧
    (Ps2patch.gdx_Ave_TcpOpen s ip port).2.gdx_rpc.param3
      = (((port &&& 0xFF) <<< 8) ||| (port >>> 8)) ∧
    (Ps2patch.gdx_Ave_TcpOpen s ip port).2.gdx_rpc.param3 = (port % 256) * 256 + port / 256 ∧
    (port = 0x1234 → (Ps2patch.gdx_Ave_TcpOpen s ip port).2.gdx_rpc.param3 = 0x3412) ∧
    (Ps2patch.gdx_Ave_TcpOpen s ip port).1 = 7 := by
  have hswap := port_swap_eq port hp
  have h3 : (Ps2patch.gdx_Ave_TcpOpen s ip port).2.gdx_rpc.param3
      = (port % 256) * 256 + port / 256 := hswap
  have hq : ∀ q : gdx_queue, gdx_queue_size (gdx_queue_init q) = 0 := by
    intro q
    simp [gdx_queue_init, gdx_queue_size, u32sub, u32add, U32, BUFSIZE]
  refine ⟨rfl, rfl, rfl, rfl, hq _, hq _, rfl, rfl, ?_, ?_, rfl, ?_, h3, ?_, rfl⟩
  · intro hip
    simp [Ps2patch.gdx_Ave_TcpOpen, hip]
  · intro hip
    simp [Ps2patch.gdx_Ave_TcpOpen, hip]
  · rw [h3, ← hswap, Nat.lor_comm]
    have hand : port &&& 0xFF = port % 256 := Nat.and_pow_two_sub_one_eq_mod port 8
    have hsmall : (port &&& 0xFF) <<< 8 % U32 = (port &&& 0xFF) <<< 8 := by
      rw [hand, Nat.shiftLeft_eq]
      have : (2 : Nat) ^ 8 = 256 := by norm_num
      simp only [U32]
      omega
    rw [hsmall]
  · intro h1234
    rw [h3, h1234]

/-- C6 at the port of the specification's example and the rendezvous address. -/
theorem C6_open_handler_witness :
    (0x1234 : Nat) ≤ 0xFFFF ∧
    (Ps2patch.gdx_Ave_TcpOpen (sampleState 1 (sampleQueue 4094 3) (sampleQueue 9 2))
      0x0077 0x1234).2.gdx_rpc.param3 = 0x3412 ∧
    (Ps2patch.gdx_Ave_TcpOpen (sampleState 1 (sampleQueue 4094 3) (sampleQueue 9 2))
      0x0077 0x1234).2.gdx_rpc.param1 = 1 :=
  ⟨by decide,
   (C6_open_handler (sampleState 1 (sampleQueue 4094 3) (sampleQueue 9 2)) 0x0077 0x1234
      (by decide)).2.2.2.2.2.2.2.2.2.2.2.2.2.1 rfl,
   (C6_open_handler (sampleState 1 (sampleQueue 4094 3) (sampleQueue 9 2)) 0x0077 0x1234
      (by decide)).2.2.2.2.2.2.2.2.1 rfl⟩

/-! ## C7: patch installation -/

/-- C7: `gdx_main` is idempotent in both variants.  Running it twice gives exactly the state
of running it once (address space with every patched word, store count, queues, flag); a state
whose `gdx_initialized` is non-zero is left unchanged, so the second run executes no store and
does not re-initialise the queues.  From `gdx_initialized = 0` the first run sets the flag to
1, empties both queues and executes 13 stores (`ps2patch`) or 7 stores (`gdxsv-patch`). -/
theorem C7_install_idempotent (h : HandlerAddrs) (s : State) :
    Ps2patch.gdx_main h (Ps2patch.gdx_main h s) = Ps2patch.gdx_main h s ∧
    GdxsvPatch.gdx_main h (GdxsvPatch.gdx_main h s) = GdxsvPatch.gdx_main h s ∧
    (Ps2patch.gdx_main h (Ps2patch.gdx_main h s)).mem.stores
      = (Ps2patch.gdx_main h s).mem.stores ∧
    (GdxsvPatch.gdx_main h (GdxsvPatch.gdx_main h s)).mem.stores
      = (GdxsvPatch.gdx_main h s).mem.stores ∧
    (s.gdx_initialized ≠ 0 → Ps2patch.gdx_main h s = s ∧ GdxsvPatch.gdx_main h s = s) ∧
    (s.gdx_initialized = 0 →
      (Ps2patch.gdx_main h s).gdx_initialized = 1 ∧
      (GdxsvPatch.gdx_main h s).gdx_initialized = 1 ∧
      (Ps2patch.gdx_main h s).mem.stores = s.mem.stores + 13 ∧
      (GdxsvPatch.gdx_main h s).mem.stores = s.mem.stores + 7 ∧
      (Ps2patch.gdx_main h s).gdx_rxq = gdx_queue_init s.gdx_rxq ∧
      (Ps2patch.gdx_main h s).gdx_txq = gdx_queue_init s.gdx_txq ∧
      (GdxsvPatch.gdx_main h s).gdx_rxq = gdx_queue_init s.gdx_rxq ∧
      (GdxsvPatch.gdx_main h s).gdx_txq = gdx_queue_init s.gdx_txq) := by
  have hp : Ps2patch.gdx_main h (Ps2patch.gdx_main h s) = Ps2patch.gdx_main h s := by
    by_cases hi : s.gdx_initialized = 0
    · have h1 : (Ps2patch.gdx_main h s).gdx_initialized = 1 := by
        simp [Ps2patch.gdx_main, hi]
      generalize Ps2patch.gdx_main h s = t at h1
      simp [Ps2patch.gdx_main, h1]
    · simp [Ps2patch.gdx_main, hi]
  have hg : GdxsvPatch.gdx_main h (GdxsvPatch.gdx_main h s) = GdxsvPatch.gdx_main h s := by
    by_cases hi : s.gdx_initialized = 0
    · have h1 : (GdxsvPatch.gdx_main h s).gdx_initialized = 1 := by
        simp [GdxsvPatch.gdx_main, hi]
      generalize GdxsvPatch.gdx_main h s = t at h1
      simp [GdxsvPatch.gdx_main, h1]
    · simp [GdxsvPatch.gdx_main, hi]
  refine ⟨hp, hg, by rw [hp], by rw [hg], ?_, ?_⟩
  · intro hi
    exact ⟨by simp [Ps2patch.gdx_main, hi], by simp [GdxsvPatch.gdx_main, hi]⟩
  · intro hi
    refine ⟨?_, ?_, ?_, ?_, ?_, ?_, ?_, ?_⟩ <;>
      simp [Ps2patch.gdx_main, Ps2patch.write_patch, GdxsvPatch.gdx_main,
        GdxsvPatch.patch_tcp, GdxsvPatch.patch_skip_modem, store32, write32, hi]

/-! ## C8: call-instruction encoding -/

/-- C8: for every `addr < 0x10000000`, `OP_JAL(addr)` equals `0x0c000000 | (addr / 4)`: its
top 6 bits are those of `0x0c000000` and its low 26 bits are `addr / 4`; for 4-byte-aligned
`addr`, `(OP_JAL(addr) & 0x03FFFFFF) * 4 = addr`, and `OP_JAL` is injective on aligned
in-range addresses. -/
theorem C8_op_jal_encoding (addr : Nat) (h : addr < 0x10000000) :
    OP_JAL addr = 0x0c000000 ||| (addr / 4) ∧
    OP_JAL addr / 2 ^ 26 * 2 ^ 26 = 0x0c000000 ∧
    OP_JAL addr % 2 ^ 26 = addr / 4 ∧
    OP_JAL addr &&& 0x03FFFFFF = addr / 4 ∧
    (addr % 4 = 0 → (OP_JAL addr &&& 0x03FFFFFF) * 4 = addr) ∧
    (∀ addr2 : Nat, addr2 < 0x10000000 → addr % 4 = 0 → addr2 % 4 = 0 →
      OP_JAL addr = OP_JAL addr2 → addr = addr2) := by
  have hval : OP_JAL addr = 0x0c000000 + addr / 4 := by
    simp only [OP_JAL, u32add, U32]
    omega
  have hmask : OP_JAL addr &&& 0x03FFFFFF = OP_JAL addr % 2 ^ 26 :=
    Nat.and_pow_two_sub_one_eq_mod (OP_JAL addr) 26
  have hmod : OP_JAL addr % 2 ^ 26 = addr / 4 := by
    rw [hval]
    norm_num
    omega
  refine ⟨?_, ?_, hmod, by rw [hmask, hmod], ?_, ?_⟩
  · have hlt : addr / 4 < 2 ^ 26 := by
      norm_num
      omega
    have hor := Nat.mul_add_lt_is_or hlt 3
    rw [hval]
    norm_num at hor
    exact hor
  · rw [hval]
    norm_num
    omega
  · intro hal
    rw [hmask, hmod]
    omega
  · intro addr2 h2 hal hal2 heq
    have hval2 : OP_JAL addr2 = 0x0c000000 + addr2 / 4 := by
      simp only [OP_JAL, u32add, U32]
      omega
    rw [hval, hval2] at heq
    omega

/-- C8 at the address encoded by the injected word `0x0c03ffc0` of the source. -/
theorem C8_op_jal_encoding_witness :
    (0x000fff00 : Nat) < 0x10000000 ∧ OP_JAL 0x000fff00 = 0x0c000000 ||| (0x000fff00 / 4) ∧
    (0x0c000000 ||| (0x000fff00 / 4) : Nat) = 0x0c03ffc0 :=
  ⟨by decide, (C8_op_jal_encoding 0x000fff00 (by decide)).1, by decide⟩

/-! ## C9: best-effort receive of `ps2patch` -/

/-- C9: `gdx_McsReceive` of `ps2patch`, with in-range inbound indices, returns
`min(len, gdx_queue_size(rxq))`, hence never more than the number of resident bytes; exactly
that many oldest bytes are at `memory[ptr..]` in FIFO order afterwards and are removed from the
queue, so a request with `len >= size` drains the queue to empty. -/
theorem C9_mcs_receive_clamped (s : State) (ptr len : Nat) (h : InRange s.gdx_rxq) :
    (Ps2patch.gdx_McsReceive s ptr len).1 = min len (gdx_queue_size s.gdx_rxq) ∧
    (Ps2patch.gdx_McsReceive s ptr len).1 ≤ gdx_queue_size s.gdx_rxq ∧
    (List.range (Ps2patch.gdx_McsReceive s ptr len).1).map
        (fun i => read8 (Ps2patch.gdx_McsReceive s ptr len).2.mem (u32add ptr i))
      = (contents s.gdx_rxq).take (Ps2patch.gdx_McsReceive s ptr len).1 ∧
    contents (Ps2patch.gdx_McsReceive s ptr len).2.gdx_rxq
      = (contents s.gdx_rxq).drop (Ps2patch.gdx_McsReceive s ptr len).1 ∧
    gdx_queue_size (Ps2patch.gdx_McsReceive s ptr len).2.gdx_rxq
        + (Ps2patch.gdx_McsReceive s ptr len).1
      = gdx_queue_size s.gdx_rxq ∧
    (gdx_queue_size s.gdx_rxq ≤ len →
      gdx_queue_size (Ps2patch.gdx_McsReceive s ptr len).2.gdx_rxq = 0) := by
  have key : ∀ n : Nat, n = min len (gdx_queue_size s.gdx_rxq) →
      Ps2patch.gdx_McsReceive s ptr len = (n, recvLoop s ptr n) := by
    intro n hn
    unfold Ps2patch.gdx_McsReceive
    by_cases h0 : len = 0
    · have : n = 0 := by omega
      simp [h0, this, recvLoop]
    · by_cases hlt : gdx_queue_size s.gdx_rxq < len
      · have hn' : n = gdx_queue_size s.gdx_rxq := by omega
        by_cases hz : gdx_queue_size s.gdx_rxq = 0
        · simp [h0, hlt, hz, hn', recvLoop]
        · simp [h0, hlt, hz, hn']
      · have hn' : n = len := by omega
        simp [h0, hlt, hn']
  have hk := key _ rfl
  have hle : min len (gdx_queue_size s.gdx_rxq) ≤ gdx_queue_size s.gdx_rxq := by omega
  obtain ⟨h1, h2, h3⟩ := recvLoop_take_drop s ptr _ h hle
  rw [hk]
  refine ⟨rfl, hle, h1, h2, h3, ?_⟩
  intro hfull
  show gdx_queue_size (recvLoop s ptr (min len (gdx_queue_size s.gdx_rxq))).gdx_rxq = 0
  omega

/-- C9 at a concrete state: 5 bytes resident (indices 4094 and 3), 9 requested. -/
theorem C9_mcs_receive_clamped_witness :
    InRange (sampleState 1 (sampleQueue 4094 3) (sampleQueue 0 0)).gdx_rxq ∧
    (Ps2patch.gdx_McsReceive (sampleState 1 (sampleQueue 4094 3) (sampleQueue 0 0))
      0x2000 9).1 = 5 ∧
    gdx_queue_size (Ps2patch.gdx_McsReceive (sampleState 1 (sampleQueue 4094 3) (sampleQueue 0 0))
      0x2000 9).2.gdx_rxq = 0 :=
  ⟨by decide,
   (C9_mcs_receive_clamped (sampleState 1 (sampleQueue 4094 3) (sampleQueue 0 0)) 0x2000 9
      (by decide)).1.trans (by decide),
   (C9_mcs_receive_clamped (sampleState 1 (sampleQueue 4094 3) (sampleQueue 0 0)) 0x2000 9
      (by decide)).2.2.2.2.2 (by decide)⟩

/-! ## C10: the two best-effort receive variants -/

/-- The two `gdx_McsReceive` variants have the same effect on the state. -/
theorem mcs_receive_same_state (s : State) (ptr len : Nat) :
    GdxsvPatch.gdx_McsReceive s ptr len = (Ps2patch.gdx_McsReceive s ptr len).2 := by
  unfold GdxsvPatch.gdx_McsReceive Ps2patch.gdx_McsReceive
  by_cases h0 : len = 0
  · simp [h0]
  · by_cases h1 : (if gdx_queue_size s.gdx_rxq < len then gdx_queue_size s.gdx_rxq else len) = 0
    · simp [h0, h1]
    · simp [h0, h1]

/-- C10, the code at two failing inputs.  `gdx_McsReceive` of `gdxsv-patch` is a `void`
function: it yields a state and no value.  With the inbound queue empty and `len = 1` it
leaves the state as it was, where the `ps2patch` variant does the same and returns 0; with 5
bytes resident and `len = 9` it ends in the state of the `ps2patch` variant, which returns 5.
In neither case does it hand the caller the `-1` or the `5` of its `return` statements. -/
theorem C10_mcs_receive_void_variant :
    gdx_queue_size (sampleState 1 (sampleQueue 0 0) (sampleQueue 0 0)).gdx_rxq = 0 ∧
    GdxsvPatch.gdx_McsReceive (sampleState 1 (sampleQueue 0 0) (sampleQueue 0 0)) 0x2000 1
      = sampleState 1 (sampleQueue 0 0) (sampleQueue 0 0) ∧
    Ps2patch.gdx_McsReceive (sampleState 1 (sampleQueue 0 0) (sampleQueue 0 0)) 0x2000 1
      = (0, sampleState 1 (sampleQueue 0 0) (sampleQueue 0 0)) ∧
    gdx_queue_size (sampleState 1 (sampleQueue 4094 3) (sampleQueue 0 0)).gdx_rxq = 5 ∧
    GdxsvPatch.gdx_McsReceive (sampleState 1 (sampleQueue 4094 3) (sampleQueue 0 0)) 0x2000 9
      = (Ps2patch.gdx_McsReceive (sampleState 1 (sampleQueue 4094 3) (sampleQueue 0 0))
          0x2000 9).2 ∧
    (Ps2patch.gdx_McsReceive (sampleState 1 (sampleQueue 4094 3) (sampleQueue 0 0))
      0x2000 9).1 = 5 ∧
    gdx_queue_size (GdxsvPatch.gdx_McsReceive
      (sampleState 1 (sampleQueue 4094 3) (sampleQueue 0 0)) 0x2000 9).gdx_rxq = 0 := by
  have h0 : gdx_queue_size (sampleState 1 (sampleQueue 0 0) (sampleQueue 0 0)).gdx_rxq = 0 := by
    decide
  refine ⟨h0, ?_, ?_, by decide, mcs_receive_same_state _ _ _, by decide, by decide⟩
  · simp [GdxsvPatch.gdx_McsReceive, h0]
  · simp [Ps2patch.gdx_McsReceive, h0]

/-! ## C11: avail/size conservation -/

/-- C11: for every queue state, whatever `head` and `tail` are, hence also after
`gdx_queue_init`, `gdx_queue_push` and `gdx_queue_pop`,
`gdx_queue_avail(q) + gdx_queue_size(q) = 4095`; `avail` does not underflow: it is the plain
difference `4096 - size - 1` with `size + 1 <= 4096`. -/
theorem C11_avail_size_conservation (q : gdx_queue) (d : Nat) :
    gdx_queue_avail q + gdx_queue_size q = 4095 ∧
    gdx_queue_size q + 1 ≤ BUFSIZE ∧
    gdx_queue_avail q = BUFSIZE - gdx_queue_size q - 1 ∧
    gdx_queue_avail (gdx_queue_init q) + gdx_queue_size (gdx_queue_init q) = 4095 ∧
    gdx_queue_avail (gdx_queue_push q d) + gdx_queue_size (gdx_queue_push q d) = 4095 ∧
    gdx_queue_avail (gdx_queue_pop q).2 + gdx_queue_size (gdx_queue_pop q).2 = 4095 := by
  have key : ∀ r : gdx_queue, gdx_queue_avail r + gdx_queue_size r = 4095 := by
    intro r
    have h1 := gdx_queue_avail_eq r
    have h2 := gdx_queue_size_lt r
    simp only [BUFSIZE] at h1 h2
    omega
  have h1 := gdx_queue_avail_eq q
  have h2 := gdx_queue_size_lt q
  refine ⟨key q, by omega, ?_, key _, key _, key _⟩
  simp only [BUFSIZE] at h1 h2 ⊢
  omega

/-! ## C12: close handler -/

/-- C12: `gdx_Ave_TcpClose`, for every prior state and every `sock`: afterwards both queues
are re-initialised (`head = tail = 0`, size 0), `gdx_rpc.request = RPC_TCP_CLOSE = 2`,
`gdx_rpc.param1 = sock`, the returned value is 0, and `response`, `param2`, `param3`,
`param4`, the name buffers and the tag of the command channel are unchanged. -/
theorem C12_close_handler (s : State) (sock : Nat) :
    (Ps2patch.gdx_Ave_TcpClose s sock).2.gdx_rxq.head = 0 ∧
    (Ps2patch.gdx_Ave_TcpClose s sock).2.gdx_rxq.tail = 0 ∧
    (Ps2patch.gdx_Ave_TcpClose s sock).2.gdx_txq.head = 0 ∧
    (Ps2patch.gdx_Ave_TcpClose s sock).2.gdx_txq.tail = 0 ∧
    gdx_queue_size (Ps2patch.gdx_Ave_TcpClose s sock).2.gdx_rxq = 0 ∧
    gdx_queue_size (Ps2patch.gdx_Ave_TcpClose s sock).2.gdx_txq = 0 ∧
    (Ps2patch.gdx_Ave_TcpClose s sock).2.gdx_rpc.request = RPC_TCP_CLOSE ∧
    RPC_TCP_CLOSE = 2 ∧
    (Ps2patch.gdx_Ave_TcpClose s sock).2.gdx_rpc.param1 = sock ∧
    (Ps2patch.gdx_Ave_TcpClose s sock).1 = 0 ∧
    (Ps2patch.gdx_Ave_TcpClose s sock).2.gdx_rpc.response = s.gdx_rpc.response ∧
    (Ps2patch.gdx_Ave_TcpClose s sock).2.gdx_rpc.param2 = s.gdx_rpc.param2 ∧
    (Ps2patch.gdx_Ave_TcpClose s sock).2.gdx_rpc.param3 = s.gdx_rpc.param3 ∧
    (Ps2patch.gdx_Ave_TcpClose s sock).2.gdx_rpc.param4 = s.gdx_rpc.param4 ∧
    (Ps2patch.gdx_Ave_TcpClose s sock).2.gdx_rpc.name1 = s.gdx_rpc.name1 ∧
    (Ps2patch.gdx_Ave_TcpClose s sock).2.gdx_rpc.name2 = s.gdx_rpc.name2 ∧
    (Ps2patch.gdx_Ave_TcpClose s sock).2.gdx_rpc.tag = s.gdx_rpc.tag := by
  have hq : ∀ q : gdx_queue, gdx_queue_size (gdx_queue_init q) = 0 := by
    intro q
    simp [gdx_queue_init, gdx_queue_size, u32sub, u32add, U32, BUFSIZE]
  exact ⟨rfl, rfl, rfl, rfl, hq _, hq _, rfl, rfl, rfl, rfl, rfl, rfl, rfl, rfl, rfl, rfl, rfl⟩

/-! ## C13: hostname-resolution stubs -/

/-- C13: for every argument and every state, `gdx_gethostbyname_ps2_0` returns 7,
`gdx_gethostbyname_ps2_1` returns `0x0077` and `gdx_gethostbyname_ps2_release` returns 0, each
leaving the whole state (queues and command channel included) as it was; and for every ticket
and port, `gdx_Ave_TcpOpen` called with the address returned by `gdx_gethostbyname_ps2_1`
stores `gdx_rpc.param1 = 1`. -/
theorem C13_hostname_stubs (s : State) (hostname ticket port : Nat) :
    Ps2patch.gdx_gethostbyname_ps2_0 s hostname = (7, s) ∧
    Ps2patch.gdx_gethostbyname_ps2_1 s ticket = (0x0077, s) ∧
    Ps2patch.gdx_gethostbyname_ps2_release s ticket = (0, s) ∧
    (Ps2patch.gdx_Ave_TcpOpen (Ps2patch.gdx_gethostbyname_ps2_1 s ticket).2
      (Ps2patch.gdx_gethostbyname_ps2_1 s ticket).1 port).2.gdx_rpc.param1 = 1 := by
  refine ⟨rfl, rfl, rfl, ?_⟩
  simp [Ps2patch.gdx_Ave_TcpOpen, Ps2patch.gdx_gethostbyname_ps2_1]

/-! ## C14: initialisation and session reset -/

/-- C14: for every queue state, after `gdx_queue_init(q)` the size is 0 and the available
room is 4095; `gdx_LobbyToMcsInitSocket` puts both queues in that state and leaves the
command-channel record (every field of it) unchanged. -/
theorem C14_init_and_reset (q : gdx_queue) (s : State) :
    gdx_queue_size (gdx_queue_init q) = 0 ∧
    gdx_queue_avail (gdx_queue_init q) = 4095 ∧
    (Ps2patch.gdx_LobbyToMcsInitSocket s).gdx_rxq = gdx_queue_init s.gdx_rxq ∧
    (Ps2patch.gdx_LobbyToMcsInitSocket s).gdx_txq = gdx_queue_init s.gdx_txq ∧
    gdx_queue_size (Ps2patch.gdx_LobbyToMcsInitSocket s).gdx_rxq = 0 ∧
    gdx_queue_avail (Ps2patch.gdx_LobbyToMcsInitSocket s).gdx_rxq = 4095 ∧
    gdx_queue_size (Ps2patch.gdx_LobbyToMcsInitSocket s).gdx_txq = 0 ∧
    gdx_queue_avail (Ps2patch.gdx_LobbyToMcsInitSocket s).gdx_txq = 4095 ∧
    (Ps2patch.gdx_LobbyToMcsInitSocket s).gdx_rpc = s.gdx_rpc := by
  have hs : ∀ r : gdx_queue, gdx_queue_size (gdx_queue_init r) = 0 := by
    intro r
    simp [gdx_queue_init, gdx_queue_size, u32sub, u32add, U32, BUFSIZE]
  have ha : ∀ r : gdx_queue, gdx_queue_avail (gdx_queue_init r) = 4095 := by
    intro r
    rw [gdx_queue_avail_eq, hs r]
    rfl
  exact ⟨hs q, ha q, rfl, rfl, hs _, ha _, hs _, ha _, rfl⟩

/-! ## C15: push on a full queue -/

/-- C15 fails as stated: on the full queue with `head = 5`, `tail = 4` (4095 resident bytes)
`gdx_queue_push` changes slot 4 and no other slot, and slot 4 is not one of the occupied slots
`head, head+1, ..., tail-1` (modulo 4096). -/
theorem C15_push_full_counterexample :
    InRange (sampleQueue 5 4) ∧ gdx_queue_avail (sampleQueue 5 4) = 0 ∧
    (gdx_queue_push (sampleQueue 5 4) 0xEE).buf 4 = 0xEE ∧
    (sampleQueue 5 4).buf 4 = 4 ∧
    (∀ j : Nat, j ≠ 4 → (gdx_queue_push (sampleQueue 5 4) 0xEE).buf j = (sampleQueue 5 4).buf j) ∧
    ¬ ∃ i : Nat, i < gdx_queue_size (sampleQueue 5 4) ∧
        ((sampleQueue 5 4).head + i) % BUFSIZE = 4 := by
  refine ⟨by decide, by decide, by decide, by decide, ?_, ?_⟩
  · intro j hj
    simp [gdx_queue_push, sampleQueue, hj]
  · rintro ⟨i, hi, he⟩
    have hs : gdx_queue_size (sampleQueue 5 4) = 4095 := by decide
    rw [hs] at hi
    simp only [sampleQueue, BUFSIZE] at he
    omega

/-- C15 (amended): for every queue state with in-range indices and `gdx_queue_avail(q) == 0`
(4095 resident bytes), `gdx_queue_push(q, b)` stores `b` in slot `tail` and changes no other
slot; slot `tail` is the one slot outside the occupied range `head, ..., tail-1` (modulo
4096), so every resident byte is still in the storage after the push. -/
theorem C15_push_full_slot (q : gdx_queue) (b : Nat) (h : InRange q)
    (hfull : gdx_queue_avail q = 0) :
    gdx_queue_size q = 4095 ∧
    (gdx_queue_push q b).buf q.tail = b % 256 ∧
    (∀ j : Nat, j ≠ q.tail → (gdx_queue_push q b).buf j = q.buf j) ∧
    q.tail = (q.head + 4095) % BUFSIZE ∧
    (∀ i : Nat, i < gdx_queue_size q → (q.head + i) % BUFSIZE ≠ q.tail) ∧
    (∀ i : Nat, i < gdx_queue_size q →
      (gdx_queue_push q b).buf ((q.head + i) % BUFSIZE) = q.buf ((q.head + i) % BUFSIZE)) := by
  have hav := gdx_queue_avail_eq q
  have hlt := gdx_queue_size_lt q
  have hsz := gdx_queue_size_of_inRange q h
  have hsize : gdx_queue_size q = 4095 := by
    simp only [BUFSIZE] at hav hlt
    omega
  have hne : ∀ i : Nat, i < gdx_queue_size q → (q.head + i) % BUFSIZE ≠ q.tail := by
    intro i hi
    simp only [InRange, BUFSIZE] at *
    omega
  refine ⟨hsize, by simp [gdx_queue_push], ?_, ?_, hne, ?_⟩
  · intro j hj
    simp [gdx_queue_push, hj]
  · simp only [InRange, BUFSIZE] at *
    omega
  · intro i hi
    simp [gdx_queue_push, hne i hi]

/-- C15 (amended) at the full queue with `head = 5`, `tail = 4`: the oldest resident byte,
in slot 5, is still there after the push. -/
theorem C15_push_full_slot_witness :
    InRange (sampleQueue 5 4) ∧ gdx_queue_avail (sampleQueue 5 4) = 0 ∧
    (gdx_queue_push (sampleQueue 5 4) 0xEE).buf (((sampleQueue 5 4).head + 0) % BUFSIZE)
      = (sampleQueue 5 4).buf (((sampleQueue 5 4).head + 0) % BUFSIZE) :=
  ⟨by decide, by decide,
   (C15_push_full_slot (sampleQueue 5 4) 0xEE (by decide) (by decide)).2.2.2.2.2 0 (by decide)⟩

/-! ## C16: queue size of the legacy variant -/

/-- C16, the code at the failing input: on the zero-initialised queue (`head == tail == 0`)
the legacy `gdx_queue_size` yields 1024, not 0, so `gdx_tcp_stat` reports 1024 readable bytes
and `gdx_tcp_recv` with `len = 1` on the empty inbound queue returns 1, not the sentinel,
after storing the stale `buf[0]` at `p` and advancing `head` to 1. -/
theorem C16_legacy_size_on_empty :
    legacyStartState.gdx_rxq.head = legacyStartState.gdx_rxq.tail ∧
    Legacy.gdx_queue_size legacyStartState.gdx_rxq = 1024 ∧
    (legacyStartState.gdx_rxq.tail + Legacy.BUFSIZE - legacyStartState.gdx_rxq.head)
      % Legacy.BUFSIZE = 0 ∧
    Legacy.gdx_tcp_stat legacyStartState 0 = 1024 ∧
    (Legacy.gdx_tcp_recv legacyStartState 0 0x2000 1).1 = 1 ∧
    (Legacy.gdx_tcp_recv legacyStartState 0 0x2000 1).1 ≠ 0xFFFFFFFF ∧
    (Legacy.gdx_tcp_recv legacyStartState 0 0x2000 1).2.gdx_rxq.head = 1 := by
  decide

/-! ## C18: effect of violating the push contract -/

/-- C18: for every queue state with in-range indices and `gdx_queue_avail(q) == 0`, after
`gdx_queue_push(q, b)` the queue reports size 0 and 4095 bytes of room: `tail` has become
equal to `head`, no byte is resident, no pop respects the contract, and every
contract-respecting run from there pops only bytes pushed during that run. -/
theorem C18_push_full_empties (q : gdx_queue) (b : Nat) (h : InRange q)
    (hfull : gdx_queue_avail q = 0) :
    gdx_queue_size (gdx_queue_push q b) = 0 ∧
    gdx_queue_avail (gdx_queue_push q b) = 4095 ∧
    (gdx_queue_push q b).tail = (gdx_queue_push q b).head ∧
    (gdx_queue_push q b).head = q.head ∧
    gdx_queue_size q = 4095 ∧
    contents (gdx_queue_push q b) = [] ∧
    (∀ ops : List QueueOp,
      respectsContract (gdx_queue_push q b) (QueueOp.pop :: ops) = false) ∧
    (∀ ops : List QueueOp, respectsContract (gdx_queue_push q b) ops = true →
      poppedBytes (gdx_queue_push q b) ops <+: pushedBytes ops) := by
  have hav := gdx_queue_avail_eq q
  have hlt := gdx_queue_size_lt q
  have hsz := gdx_queue_size_of_inRange q h
  have hsize : gdx_queue_size q = 4095 := by
    simp only [BUFSIZE] at hav hlt
    omega
  have htail : (gdx_queue_push q b).tail = q.head := by
    simp only [InRange, gdx_queue_push, u32add, U32, BUFSIZE] at *
    omega
  have hs0 : gdx_queue_size (gdx_queue_push q b) = 0 := by
    have hh : (gdx_queue_push q b).head = q.head := rfl
    have hr := inRange_push q b h
    have := gdx_queue_size_of_inRange _ hr
    rw [this, htail, hh]
    simp only [InRange, BUFSIZE] at *
    omega
  have hc : contents (gdx_queue_push q b) = [] := by
    simp [contents, hs0]
  refine ⟨hs0, ?_, htail, rfl, hsize, hc, ?_, ?_⟩
  · rw [gdx_queue_avail_eq, hs0]
    rfl
  · intro ops
    simp [respectsContract, hs0]
  · intro ops hops
    have hb := fifo_bookkeeping ops (gdx_queue_push q b) (inRange_push q b h) hops
    rw [hc, List.nil_append] at hb
    exact ⟨_, hb.symm⟩

/-- C18 at the full queue with `head = 5`, `tail = 4`. -/
theorem C18_push_full_empties_witness :
    InRange (sampleQueue 5 4) ∧ gdx_queue_avail (sampleQueue 5 4) = 0 ∧
    gdx_queue_size (sampleQueue 5 4) = 4095 ∧
    gdx_queue_size (gdx_queue_push (sampleQueue 5 4) 0xEE) = 0 ∧
    gdx_queue_avail (gdx_queue_push (sampleQueue 5 4) 0xEE) = 4095 :=
  ⟨by decide, by decide,
   (C18_push_full_empties (sampleQueue 5 4) 0xEE (by decide) (by decide)).2.2.2.2.1,
   (C18_push_full_empties (sampleQueue 5 4) 0xEE (by decide) (by decide)).1,
   (C18_push_full_empties (sampleQueue 5 4) 0xEE (by decide) (by decide)).2.1⟩

/-! ## C17: index-range invariant -/

theorem sendLoop_inRange (s : State) (ptr : Nat) (h : InRange s.gdx_txq) :
    ∀ n : Nat, InRange (sendLoop s ptr n).gdx_txq := by
  intro n
  induction n with
  | zero => simpa [sendLoop] using h
  | succ n ih =>
    rw [sendLoop_succ]
    exact inRange_push _ _ ih

theorem recvLoop_inRange (s : State) (ptr : Nat) (h : InRange s.gdx_rxq) :
    ∀ n : Nat, InRange (recvLoop s ptr n).gdx_rxq := by
  intro n
  induction n with
  | zero => simpa [recvLoop] using h
  | succ n ih =>
    rw [recvLoop_succ]
    exact inRange_pop _ ih

/-- C17: the predicate `head < 4096 and tail < 4096` holds after `gdx_queue_init`, is
preserved by `gdx_queue_push` and `gdx_queue_pop`, and, on both queues, by
`gdx_Ave_TcpSend`, `gdx_Ave_TcpRecv`, `gdx_McsReceive`, `gdx_TcpGetStatus`,
`gdx_Ave_TcpOpen`, `gdx_Ave_TcpClose` and `gdx_LobbyToMcsInitSocket` for all arguments; it
also holds before every iteration of the send and receive loops, so each `buf[tail]` /
`buf[head]` access is inside the 4096-byte storage. -/
theorem C17_index_range_invariant (s : State) (sock ptr len dst ip port : Nat)
    (hs : QueuesInRange s) :
    (∀ q : gdx_queue, InRange (gdx_queue_init q)) ∧
    (∀ (q : gdx_queue) (d : Nat), InRange q → InRange (gdx_queue_push q d)) ∧
    (∀ q : gdx_queue, InRange q → InRange (gdx_queue_pop q).2) ∧
    QueuesInRange (Ps2patch.gdx_Ave_TcpSend s sock ptr len).2 ∧
    QueuesInRange (Ps2patch.gdx_Ave_TcpRecv s sock ptr len).2 ∧
    QueuesInRange (Ps2patch.gdx_McsReceive s ptr len).2 ∧
    QueuesInRange (Ps2patch.gdx_TcpGetStatus s sock dst).2 ∧
    QueuesInRange (Ps2patch.gdx_Ave_TcpOpen s ip port).2 ∧
    QueuesInRange (Ps2patch.gdx_Ave_TcpClose s sock).2 ∧
    QueuesInRange (Ps2patch.gdx_LobbyToMcsInitSocket s) ∧
    (∀ k : Nat, (sendLoop s ptr k).gdx_txq.tail < BUFSIZE) ∧
    (∀ k : Nat, (recvLoop s ptr k).gdx_rxq.head < BUFSIZE) := by
  obtain ⟨hr, ht⟩ := hs
  have hsend : ∀ n : Nat, QueuesInRange (sendLoop s ptr n) := by
    intro n
    refine ⟨?_, sendLoop_inRange s ptr ht n⟩
    rw [(sendLoop_frame s ptr n).2.1]
    exact hr
  have hrecv : ∀ n : Nat, QueuesInRange (recvLoop s ptr n) := by
    intro n
    refine ⟨recvLoop_inRange s ptr hr n, ?_⟩
    rw [(recvLoop_frame s ptr n).1]
    exact ht
  refine ⟨inRange_init, inRange_push, inRange_pop, ?_, ?_, ?_, ⟨hr, ht⟩,
    ⟨inRange_init _, inRange_init _⟩, ⟨inRange_init _, inRange_init _⟩,
    ⟨inRange_init _, inRange_init _⟩, fun k => (sendLoop_inRange s ptr ht k).2,
    fun k => (recvLoop_inRange s ptr hr k).1⟩
  · unfold Ps2patch.gdx_Ave_TcpSend
    split
    · exact ⟨hr, ht⟩
    · split
      · exact ⟨hr, ht⟩
      · exact hsend len
  · unfold Ps2patch.gdx_Ave_TcpRecv
    split
    · exact ⟨hr, ht⟩
    · exact hrecv len
  · unfold Ps2patch.gdx_McsReceive
    by_cases h0 : len = 0
    · simpa [h0] using And.intro hr ht
    · by_cases h1 : (if gdx_queue_size s.gdx_rxq < len then gdx_queue_size s.gdx_rxq else len) = 0
      · simpa [h0, h1] using And.intro hr ht
      · simpa [h0, h1] using hrecv _

/-- C17 at a state whose queues wrap around the end of the storage. -/
theorem C17_index_range_invariant_witness :
    QueuesInRange (sampleState 1 (sampleQueue 4094 3) (sampleQueue 4090 5)) ∧
    QueuesInRange (Ps2patch.gdx_Ave_TcpSend
      (sampleState 1 (sampleQueue 4094 3) (sampleQueue 4090 5)) 7 0x2000 3).2 ∧
    QueuesInRange (Ps2patch.gdx_Ave_TcpRecv
      (sampleState 1 (sampleQueue 4094 3) (sampleQueue 4090 5)) 7 0x2000 3).2 :=
  ⟨⟨by decide, by decide⟩,
   (C17_index_range_invariant (sampleState 1 (sampleQueue 4094 3) (sampleQueue 4090 5))
      7 0x2000 3 0 0 0 ⟨by decide, by decide⟩).2.2.2.1,
   (C17_index_range_invariant (sampleState 1 (sampleQueue 4094 3) (sampleQueue 4090 5))
      7 0x2000 3 0 0 0 ⟨by decide, by decide⟩).2.2.2.2.1⟩

/-! ## C19: the `0x7fff` cap -/

/-- C19: for every state, whatever `head` and `tail` of the inbound queue are,
`gdx_queue_size(rxq) <= 4095 < 0x7fff`; hence the test `n <= 0x7fff` of `gdx_TcpGetStatus`
always holds (the capping branch is never taken) and the word it stores at `dst + 4` is
exactly `gdx_queue_size(rxq)`. -/
theorem C19_cap_unreachable (s : State) (sock dst : Nat) :
    gdx_queue_size s.gdx_rxq ≤ 4095 ∧
    (4095 : Nat) < 0x7fff ∧
    gdx_queue_size s.gdx_rxq ≤ 0x7fff ∧
    (if gdx_queue_size s.gdx_rxq ≤ 0x7fff then gdx_queue_size s.gdx_rxq else 0x7fff)
      = gdx_queue_size s.gdx_rxq ∧
    read32 (Ps2patch.gdx_TcpGetStatus s sock dst).2.mem (u32add dst 4)
      = gdx_queue_size s.gdx_rxq := by
  have hlt := gdx_queue_size_lt s.gdx_rxq
  simp only [BUFSIZE] at hlt
  have hle : gdx_queue_size s.gdx_rxq ≤ 0x7fff := by omega
  refine ⟨by omega, by decide, hle, by simp [hle], ?_⟩
  simp only [Ps2patch.gdx_TcpGetStatus, store32, hle, if_true]
  rw [(status_record_words s.mem dst _).2]
  by_cases h0 : 0 < gdx_queue_size s.gdx_rxq
  · simp only [h0, if_true, U32]; omega
  · simp only [h0, if_false, U32]; omega

/-! ## C20: the port endian fix -/

/-- A bitwise or is at least any power of two its left operand reaches. -/
theorem lor_ge_two_pow (x y n : Nat) (h : 2 ^ n ≤ x) : 2 ^ n ≤ x ||| y := by
  obtain ⟨i, hi, hbit⟩ := Nat.ge_two_pow_implies_high_bit_true h
  have hor : (x ||| y).testBit i = true := by simp [hbit]
  have hge := Nat.testBit_implies_ge hor
  have hpow : 2 ^ n ≤ 2 ^ i := Nat.pow_le_pow_right (by norm_num) hi
  omega

/-- The value `gdx_Ave_TcpOpen` stores in `gdx_rpc.param3`. -/
theorem open_param3 (s : State) (ip port : Nat) :
    (Ps2patch.gdx_Ave_TcpOpen s ip port).2.gdx_rpc.param3
      = (port >>> 8) ||| (((port &&& 0xFF) <<< 8) % U32) := rfl

/-- C20 fails as stated: the port value `0x10000`, above `0xFFFF`, is stored as `0x100`,
which is a 16-bit quantity. -/
theorem C20_port_swap_counterexample :
    (0xFFFF : Nat) < 0x10000 ∧
    (Ps2patch.gdx_Ave_TcpOpen (sampleState 1 (sampleQueue 0 0) (sampleQueue 0 0))
      0x0077 0x10000).2.gdx_rpc.param3 = 0x100 ∧
    (Ps2patch.gdx_Ave_TcpOpen (sampleState 1 (sampleQueue 0 0) (sampleQueue 0 0))
      0x0077 0x10000).2.gdx_rpc.param3 ≤ 0xFFFF := by
  decide

/-- C20 (amended): writing `swap(port)` for the value `gdx_Ave_TcpOpen` stores in
`gdx_rpc.param3`: for every `port <= 0xFFFF`, `swap(port) <= 0xFFFF` and
`swap(swap(port)) = port`; for `port >= 0x1000000` the stored value exceeds `0xFFFF`; for
`0xFFFF < port < 0x1000000` the stored value is at most `0xFFFF` and `swap` does not give the
port back from it. -/
theorem C20_port_swap (s s2 : State) (ip ip2 port : Nat) :
    (port ≤ 0xFFFF →
      (Ps2patch.gdx_Ave_TcpOpen s ip port).2.gdx_rpc.param3 ≤ 0xFFFF ∧
      (Ps2patch.gdx_Ave_TcpOpen s2 ip2
        (Ps2patch.gdx_Ave_TcpOpen s ip port).2.gdx_rpc.param3).2.gdx_rpc.param3 = port) ∧
    (0x1000000 ≤ port → 0xFFFF < (Ps2patch.gdx_Ave_TcpOpen s ip port).2.gdx_rpc.param3) ∧
    (0xFFFF < port → port < 0x1000000 →
      (Ps2patch.gdx_Ave_TcpOpen s ip port).2.gdx_rpc.param3 ≤ 0xFFFF ∧
      (Ps2patch.gdx_Ave_TcpOpen s2 ip2
        (Ps2patch.gdx_Ave_TcpOpen s ip port).2.gdx_rpc.param3).2.gdx_rpc.param3 ≠ port) := by
  have h16 : ∀ p : Nat, p ≤ 0xFFFF →
      (p >>> 8) ||| (((p &&& 0xFF) <<< 8) % U32) ≤ 0xFFFF := by
    intro p hp
    rw [port_swap_eq p hp]
    omega
  have hand : port &&& 0xFF = port % 256 := Nat.and_pow_two_sub_one_eq_mod port 8
  have hz : ((port &&& 0xFF) <<< 8) % U32 < 2 ^ 16 := by
    rw [hand, Nat.shiftLeft_eq]
    have e8 : (2 : Nat) ^ 8 = 256 := by norm_num
    have e16 : (2 : Nat) ^ 16 = 65536 := by norm_num
    simp only [U32]
    omega
  refine ⟨?_, ?_, ?_⟩
  · intro hp
    have hle := h16 port hp
    refine ⟨by rw [open_param3]; exact hle, ?_⟩
    rw [open_param3 s2, open_param3 s, port_swap_eq _ hle, port_swap_eq port hp]
    omega
  · intro hp
    rw [open_param3]
    have hx : 2 ^ 16 ≤ port >>> 8 := by
      rw [Nat.shiftRight_eq_div_pow]
      norm_num
      omega
    have := lor_ge_two_pow (port >>> 8) (((port &&& 0xFF) <<< 8) % U32) 16 hx
    norm_num at this
    omega
  · intro hlo hhi
    have hx : port >>> 8 < 2 ^ 16 := by
      rw [Nat.shiftRight_eq_div_pow]
      norm_num
      omega
    have hlt := Nat.or_lt_two_pow hx hz
    have hle : (port >>> 8) ||| (((port &&& 0xFF) <<< 8) % U32) ≤ 0xFFFF := by
      norm_num at hlt
      omega
    refine ⟨by rw [open_param3]; exact hle, ?_⟩
    have h2 := h16 _ hle
    rw [open_param3 s2, open_param3 s]
    omega

end Gdxsv
